import Mathlib

/-! Legacy ante-handler middleware (x/auth/middleware/legacy_ante.go)

A shallow embedding of `legacyAnteTxHandler`: its three operations `CheckTx`,
`DeliverTx`, `SimulateTx`, the shared `runAnte`, and `validateBasicTxMsgs`.

Go code with side effects is embedded by explicit state passing.  The state
is a heap of the mutable objects that contexts refer to (stores, gas meters,
event managers) together with a ghost trace of the calls the middleware makes
to its collaborators.  A Go `error` is an `Option Error` (`none` is `nil`);
a run-time panic of the Go code is the result `none` of an operation.
-/

set_option autoImplicit false

namespace LegacyAnte

/-! ## Errors -/

/-- Modelled from the spec: the structured errors of `types/errors` (the package is
not among the sources).  An error is either a registered root error or another
error wrapped with a description. -/
inductive Error where
  | registered (codespace : String) (code : Nat) (description : String)
  | wrapped (parent : Error) (msg : String)
  deriving DecidableEq, Repr

/-- Modelled from the spec: the registered "invalid request" error of `types/errors`. -/
def ErrInvalidRequest : Error := Error.registered "sdk" 18 "invalid request"

/-- Modelled from the spec: `sdkerrors.Wrap` of `types/errors`; it extends an error
with a description and maps `nil` to `nil`. -/
def Wrap (err : Option Error) (description : String) : Option Error :=
  match err with
  | none => none
  | some e => some (Error.wrapped e description)

/-! ## Messages and transactions -/

/-- A message, `sdk.Msg`: the core only uses its `ValidateBasic` capability, whose
outcome is a field of the message. -/
structure Msg where
  typeURL : String
  ValidateBasic : Option Error
  deriving DecidableEq, Repr

/-- A transaction, `sdk.Tx`: the core only uses `GetMsgs`. -/
structure Tx where
  GetMsgs : List Msg
  deriving DecidableEq, Repr

/-! ## The heap: stores, gas meters, event managers -/

abbrev Key := String
abbrev Value := Nat
abbrev StoreId := Nat
abbrev GasMeterId := Nat
abbrev EventManagerId := Nat

/-- Modelled from the spec: a key-value store object (section 3, Scoped State
Branch; the store packages are not among the sources).  `entries` holds the writes
made to this object, newest first, a deletion being the value `none`.  A root store
has no parent; a branch is an overlay whose parent is the store it was taken from. -/
structure Store where
  parent : Option StoreId
  entries : List (Key × Option Value)
  deriving DecidableEq, Repr

/-- An event of an event log. -/
structure Event where
  kind : String
  attributes : List (String × String)
  deriving DecidableEq, Repr

/-- Modelled from the spec: the resource meter, a counter with a limit. -/
structure GasMeter where
  limit : Nat
  consumed : Nat
  deriving DecidableEq, Repr

/-- The mutable objects contexts refer to; an identifier is an index in its list. -/
structure Heap where
  stores : List Store
  gasMeters : List GasMeter
  eventManagers : List (List Event)
  deriving DecidableEq, Repr

/-- The newest entry written for key `k`, if any. -/
def lookupEntry (k : Key) : List (Key × Option Value) → Option (Option Value)
  | [] => none
  | e :: es => if e.1 = k then some e.2 else lookupEntry k es

/-- Reading key `k` through store `id`: the newest entry of the object decides;
without an entry the read falls through to the parent.  A parent is an older object
(smaller identifier), so `id + 1` steps always suffice. -/
def getAux (stores : List Store) : Nat → StoreId → Key → Option Value
  | 0, _, _ => none
  | fuel + 1, id, k =>
    match stores[id]? with
    | none => none
    | some st =>
      match lookupEntry k st.entries with
      | some v => v
      | none =>
        match st.parent with
        | none => none
        | some p => if p < id then getAux stores fuel p k else none

/-- Modelled from the spec: `Get` through a store handle: reads against a branch see
branch-local writes and fall through to the parent otherwise. -/
def Heap.Get (h : Heap) (id : StoreId) (k : Key) : Option Value :=
  getAux h.stores (id + 1) id k

/-- Replace store object `id` by `f` of it (nothing happens on a dangling handle). -/
def Heap.modifyStore (h : Heap) (id : StoreId) (f : Store → Store) : Heap :=
  match h.stores[id]? with
  | none => h
  | some st => { h with stores := h.stores.set id (f st) }

/-- A write (`some v`) or deletion (`none`) of key `k` through store handle `id`:
it lands in the object `id` itself. -/
def Heap.put (h : Heap) (id : StoreId) (k : Key) (v : Option Value) : Heap :=
  h.modifyStore id (fun st => { st with entries := (k, v) :: st.entries })

/-- Modelled from the spec: `Set` through a store handle. -/
def Heap.Set (h : Heap) (id : StoreId) (k : Key) (v : Value) : Heap :=
  h.put id k (some v)

/-- Modelled from the spec: `Delete` through a store handle. -/
def Heap.Delete (h : Heap) (id : StoreId) (k : Key) : Heap :=
  h.put id k none

/-- A sequence of writes through one handle, first element first. -/
def Heap.applyWrites (h : Heap) (id : StoreId) : List (Key × Option Value) → Heap
  | [] => h
  | w :: ws => (h.put id w.1 w.2).applyWrites id ws

/-- Modelled from the spec: `MultiStore.CacheMultiStore`, creation of a branch of
`parent`: a new object with an empty overlay. -/
def Heap.CacheMultiStore (h : Heap) (parent : StoreId) : StoreId × Heap :=
  (h.stores.length, { h with stores := h.stores ++ [{ parent := some parent, entries := [] }] })

/-- Modelled from the spec: `CacheMultiStore.Write`, the commit of a branch: the
overlay entries are written into the parent, oldest first, and the overlay is
emptied.  On an object without a parent nothing happens. -/
def Heap.Write (h : Heap) (id : StoreId) : Heap :=
  match h.stores[id]? with
  | none => h
  | some st =>
    match st.parent with
    | none => h
    | some p =>
      (h.applyWrites p st.entries.reverse).modifyStore id (fun b => { b with entries := [] })

/-- Modelled from the spec: `sdk.NewEventManager`, a fresh, empty event log. -/
def NewEventManager (h : Heap) : EventManagerId × Heap :=
  (h.eventManagers.length, { h with eventManagers := h.eventManagers ++ [[]] })

/-- Modelled from the spec: emitting events through an event manager (section 3: the
event log is ordered and append-only): the events are appended to the log `em`. -/
def Heap.EmitEvents (h : Heap) (em : EventManagerId) (evs : List Event) : Heap :=
  match h.eventManagers[em]? with
  | none => h
  | some log => { h with eventManagers := h.eventManagers.set em (log ++ evs) }

/-- Modelled from the spec: `GasMeter.ConsumeGas` (glossary, resource meter: a counter
tracking consumption): the amount is added to the consumption of meter `m`. -/
def Heap.ConsumeGas (h : Heap) (m : GasMeterId) (amount : Nat) : Heap :=
  match h.gasMeters[m]? with
  | none => h
  | some g => { h with gasMeters := h.gasMeters.set m { g with consumed := g.consumed + amount } }

/-! ## Execution context -/

/-- Modelled from the spec: `sdk.Context` (section 3, Execution Context;
`types/context.go` is not among the sources): a value carrying the state handle,
the event log, the resource meter, the mode flags and ancillary fields.  The three
handles are references into the heap and may be `nil`. -/
structure Context where
  ms : Option StoreId
  eventManager : Option EventManagerId
  gasMeter : Option GasMeterId
  checkTx : Bool
  simulate : Bool
  chainID : String
  blockHeight : Int
  deriving DecidableEq, Repr

/-- The Go value `sdk.Context{}`. -/
def Context.zero : Context :=
  { ms := none, eventManager := none, gasMeter := none, checkTx := false,
    simulate := false, chainID := "", blockHeight := 0 }

/-- Modelled from the spec: `Context.MultiStore`. -/
def Context.MultiStore (c : Context) : Option StoreId := c.ms

/-- Modelled from the spec: `Context.WithMultiStore`, the derivation that swaps the
state handle and keeps every other field. -/
def Context.WithMultiStore (c : Context) (ms : Option StoreId) : Context :=
  { c with ms := ms }

/-- Modelled from the spec: `Context.WithEventManager`, the derivation that swaps the
event log and keeps every other field. -/
def Context.WithEventManager (c : Context) (em : EventManagerId) : Context :=
  { c with eventManager := some em }

/-! ## Requests and responses -/

/-- The request `abci.RequestCheckTx`. -/
structure RequestCheckTx where
  Tx : List Nat
  Kind : Nat := 0
  deriving DecidableEq, Repr

/-- The request `abci.RequestDeliverTx`. -/
structure RequestDeliverTx where
  Tx : List Nat
  deriving DecidableEq, Repr

/-- The request `tx.RequestSimulateTx`. -/
structure RequestSimulateTx where
  TxBytes : List Nat
  deriving DecidableEq, Repr

/-- The response `abci.ResponseCheckTx`; a field left out of a literal is zero. -/
structure ResponseCheckTx where
  Code : Nat := 0
  Data : List Nat := []
  Log : String := ""
  Info : String := ""
  GasWanted : Int := 0
  GasUsed : Int := 0
  Events : List Event := []
  Codespace : String := ""
  deriving DecidableEq, Repr

/-- The response `abci.ResponseDeliverTx`; a field left out of a literal is zero. -/
structure ResponseDeliverTx where
  Code : Nat := 0
  Data : List Nat := []
  Log : String := ""
  Info : String := ""
  GasWanted : Int := 0
  GasUsed : Int := 0
  Events : List Event := []
  Codespace : String := ""
  deriving DecidableEq, Repr

/-- The value `sdk.GasInfo`. -/
structure GasInfo where
  GasWanted : Nat := 0
  GasUsed : Nat := 0
  deriving DecidableEq, Repr

/-- The value `sdk.Result`. -/
structure Result where
  Data : List Nat := []
  Log : String := ""
  Events : List Event := []
  deriving DecidableEq, Repr

/-- The response `tx.ResponseSimulateTx`; `Result` is a pointer, `none` is `nil`. -/
structure ResponseSimulateTx where
  GasInfo : GasInfo := {}
  Result : Option Result := none
  deriving DecidableEq, Repr

/-! ## Handlers -/

/-- The admission function `sdk.AnteHandler`: given a context, the transaction and the
simulate flag it returns a context and an error, and acts on the heap. -/
abbrev AnteHandler := Context → Tx → Bool → Heap → (Context × Option Error) × Heap

/-- The interface `tx.TxHandler` of the inner handler: one operation per mode. -/
structure TxHandler where
  CheckTx : Context → Tx → RequestCheckTx → Heap → (ResponseCheckTx × Option Error) × Heap
  DeliverTx : Context → Tx → RequestDeliverTx → Heap → (ResponseDeliverTx × Option Error) × Heap
  SimulateTx : Context → Tx → RequestSimulateTx → Heap → (ResponseSimulateTx × Option Error) × Heap

/-- The struct `legacyAnteTxHandler`; a `nil` admission function is `none`. -/
structure legacyAnteTxHandler where
  anteHandler : Option AnteHandler
  inner : TxHandler

/-- The constructor `newLegacyAnteMiddleware`. -/
def newLegacyAnteMiddleware (anteHandler : Option AnteHandler) (txHandler : TxHandler) :
    legacyAnteTxHandler :=
  { anteHandler := anteHandler, inner := txHandler }

/-! ## State and ghost trace -/

/-- A call the middleware makes to a collaborator. -/
inductive Call where
  | cacheTxContext (parent : StoreId) (branch : StoreId)
  | anteHandler (ctx : Context) (tx : Tx) (isSimulate : Bool)
  | write (branch : StoreId)
  | innerCheckTx (ctx : Context) (tx : Tx) (req : RequestCheckTx)
  | innerDeliverTx (ctx : Context) (tx : Tx) (req : RequestDeliverTx)
  | innerSimulateTx (ctx : Context) (tx : Tx) (req : RequestSimulateTx)
  deriving DecidableEq, Repr

/-- The state threaded through the middleware: the heap and the ghost trace of the
calls made so far, oldest first.  No definition reads the trace. -/
structure State where
  heap : Heap
  trace : List Call
  deriving DecidableEq, Repr

/-! ## The source functions -/

/-- The function `validateBasicTxMsgs`; `loop` is its `for` loop over the messages. -/
def validateBasicTxMsgs.loop : List Msg → Option Error
  | [] => none
  | msg :: rest =>
    match msg.ValidateBasic with
    | some err => some err
    | none => validateBasicTxMsgs.loop rest

/-- The function `validateBasicTxMsgs`: basic validator calls for messages. -/
def validateBasicTxMsgs (msgs : List Msg) : Option Error :=
  if msgs.length = 0 then
    Wrap (some ErrInvalidRequest) "must contain at least one message"
  else
    validateBasicTxMsgs.loop msgs

/-- Modelled from the spec: `cacheTxContext` (section 4.1,
`branch(parent) -> (branchedContext, branchHandle)`; the function is not among the
sources): a branch of the context's store and the context derived with the branch as
its state handle.  Branching a `nil` store handle is a run-time panic (`none`). -/
def cacheTxContext (sdkCtx : Context) (_txBytes : List Nat) (s : State) :
    Option ((Context × StoreId) × State) :=
  match sdkCtx.MultiStore with
  | none => none
  | some ms =>
    let r := s.heap.CacheMultiStore ms
    some ((sdkCtx.WithMultiStore (some r.1), r.1),
      { heap := r.2, trace := s.trace ++ [Call.cacheTxContext ms r.1] })

/-- The method `runAnte`.  `IsZero` is `sdk.Context.IsZero`, which is not among the
sources and is taken as a parameter.  The incoming `context.Context` is identified
with the `sdk.Context` it wraps. -/
def legacyAnteTxHandler.runAnte (IsZero : Context → Bool) (txh : legacyAnteTxHandler)
    (ctx : Context) (tx : Tx) (txBytes : List Nat) (isSimulate : Bool) (s : State) :
    Option ((Context × Option Error) × State) :=
  match validateBasicTxMsgs tx.GetMsgs with
  | some err => some ((Context.zero, some err), s)
  | none =>
    let sdkCtx := ctx
    match txh.anteHandler with
    | none => some ((sdkCtx, none), s)
    | some anteHandler =>
      let ms := sdkCtx.MultiStore
      match cacheTxContext sdkCtx txBytes s with
      | none => none
      | some c =>
        let msCache := c.1.2
        let em := NewEventManager c.2.heap
        let anteCtx := c.1.1.WithEventManager em.1
        let r := anteHandler anteCtx tx isSimulate em.2
        let newCtx := r.1.1
        let s1 : State := { heap := r.2, trace := c.2.trace ++ [Call.anteHandler anteCtx tx isSimulate] }
        match r.1.2 with
        | some err => some ((Context.zero, some err), s1)
        | none =>
          let sdkCtx := if !IsZero newCtx then newCtx.WithMultiStore ms else sdkCtx
          some ((sdkCtx, none),
            { heap := s1.heap.Write msCache, trace := s1.trace ++ [Call.write msCache] })

/-- The method `CheckTx`. -/
def legacyAnteTxHandler.CheckTx (IsZero : Context → Bool) (txh : legacyAnteTxHandler)
    (ctx : Context) (tx : Tx) (req : RequestCheckTx) (s : State) :
    Option ((ResponseCheckTx × Option Error) × State) :=
  match txh.runAnte IsZero ctx tx req.Tx false s with
  | none => none
  | some a =>
    match a.1.2 with
    | some err => some (({}, some err), a.2)
    | none =>
      let sdkCtx := a.1.1
      let r := txh.inner.CheckTx sdkCtx tx req a.2.heap
      let res := r.1.1
      let s1 : State := { heap := r.2, trace := a.2.trace ++ [Call.innerCheckTx sdkCtx tx req] }
      match r.1.2 with
      | some err => some (({}, some err), s1)
      | none => some (({ Data := res.Data, Events := res.Events, Log := res.Log }, none), s1)

/-- The method `DeliverTx`. -/
def legacyAnteTxHandler.DeliverTx (IsZero : Context → Bool) (txh : legacyAnteTxHandler)
    (ctx : Context) (tx : Tx) (req : RequestDeliverTx) (s : State) :
    Option ((ResponseDeliverTx × Option Error) × State) :=
  match txh.runAnte IsZero ctx tx req.Tx false s with
  | none => none
  | some a =>
    match a.1.2 with
    | some err => some (({}, some err), a.2)
    | none =>
      let sdkCtx := a.1.1
      let r := txh.inner.DeliverTx sdkCtx tx req a.2.heap
      let res := r.1.1
      let s1 : State := { heap := r.2, trace := a.2.trace ++ [Call.innerDeliverTx sdkCtx tx req] }
      match r.1.2 with
      | some err => some (({}, some err), s1)
      | none => some (({ Data := res.Data, Events := res.Events, Log := res.Log }, none), s1)

/-- The method `SimulateTx`. -/
def legacyAnteTxHandler.SimulateTx (IsZero : Context → Bool) (txh : legacyAnteTxHandler)
    (ctx : Context) (sdkTx : Tx) (req : RequestSimulateTx) (s : State) :
    Option ((ResponseSimulateTx × Option Error) × State) :=
  match txh.runAnte IsZero ctx sdkTx req.TxBytes true s with
  | none => none
  | some a =>
    match a.1.2 with
    | some err => some (({}, some err), a.2)
    | none =>
      let sdkCtx := a.1.1
      let r := txh.inner.SimulateTx sdkCtx sdkTx req a.2.heap
      let res := r.1.1
      let s1 : State := { heap := r.2, trace := a.2.trace ++ [Call.innerSimulateTx sdkCtx sdkTx req] }
      match r.1.2 with
      | some err => some (({}, some err), s1)
      | none => some (({ Result := res.Result }, none), s1)

/-! ## Account lookup (x/auth/keeper) -/

/-- An account address, `sdk.AccAddress`: a sequence of bytes. -/
abbrev AccAddress := List Nat

/-- Modelled from the spec: an account of the account store (section 6, account and
identity store; x/auth/types is not among the sources). -/
structure Account where
  address : AccAddress
  accountNumber : Nat
  sequence : Nat
  deriving DecidableEq, Repr

/-- The human-readable part that starts the string form of an address (the bytes of
`cosmos1`). -/
def bech32Hrp : List Nat := [99, 111, 115, 109, 111, 115, 49]

/-- Modelled from the spec: `AccAddress.String`, the string form of an address
(types/address.go is not among the sources).  A Go string is the list of its bytes.
The empty address has the empty string form; the encoding of a non-empty address is
rendered by the human-readable part in front of the address bytes. -/
def AccAddress.String (aa : AccAddress) : List Nat :=
  if aa = [] then [] else bech32Hrp ++ aa

/-- Modelled from the spec: `sdk.AccAddressFromBech32`, the address of a string form;
`none` is an error (the string is not the string form of an address). -/
def AccAddressFromBech32 (address : List Nat) : Option AccAddress :=
  if address.take bech32Hrp.length = bech32Hrp ∧ address.drop bech32Hrp.length ≠ [] then
    some (address.drop bech32Hrp.length)
  else none

/-- Modelled from the spec: the account store of `AccountKeeper` (x/auth/keeper is not
among the sources, only the test of its queries is): the registered accounts. -/
structure AccountKeeper where
  accounts : List Account
  deriving DecidableEq, Repr

/-- Modelled from the spec: `AccountKeeper.NewAccountWithAddress`, a new account with
the given address. -/
def AccountKeeper.NewAccountWithAddress (_k : AccountKeeper) (addr : AccAddress) : Account :=
  { address := addr, accountNumber := 0, sequence := 0 }

/-- Modelled from the spec: `AccountKeeper.SetAccount`, registration of an account under
its address, replacing an account registered under the same address. -/
def AccountKeeper.SetAccount (k : AccountKeeper) (acc : Account) : AccountKeeper :=
  { accounts := acc :: k.accounts.filter (fun a => a.address ≠ acc.address) }

/-- Modelled from the spec: `AccountKeeper.GetAccount`, the account registered under an
address, if any. -/
def AccountKeeper.GetAccount (k : AccountKeeper) (addr : AccAddress) : Option Account :=
  k.accounts.find? (fun a => a.address = addr)

/-- The request `types.QueryAccountRequest`. -/
structure QueryAccountRequest where
  Address : List Nat
  deriving DecidableEq, Repr

/-- The response `types.QueryAccountResponse`. -/
structure QueryAccountResponse where
  Account : Account
  deriving DecidableEq, Repr

/-- Modelled from the spec: the "invalid request" error of the read surface. -/
def errInvalidArgument (msg : String) : Error := Error.registered "grpc" 3 msg

/-- Modelled from the spec: the "not found" error of the read surface. -/
def errNotFound : Error := Error.registered "grpc" 5 "account not found"

/-- Modelled from the spec: the lookup-by-address query `Account` of the keeper
(section 6: a not-found lookup yields a "not found" error with a nil result, malformed
address input yields an "invalid request" error; the cases of `TestGRPCQueryAccount`).
The result is a pointer, `none` is `nil`. -/
def AccountKeeper.Account (k : AccountKeeper)
    (req : Option QueryAccountRequest) : Option QueryAccountResponse × Option Error :=
  match req with
  | none => (none, some (errInvalidArgument "empty request"))
  | some req =>
    if req.Address = [] then (none, some (errInvalidArgument "Address cannot be empty"))
    else
      match AccAddressFromBech32 req.Address with
      | none => (none, some (errInvalidArgument "invalid address"))
      | some addr =>
        match k.GetAccount addr with
        | none => (none, some errNotFound)
        | some acc => (some { Account := acc }, none)

/-! ## Derived notions used in the statements -/

/-- The identifier of the branch that `cacheTxContext` creates in state `s`. -/
def branchId (s : State) : StoreId := s.heap.stores.length

/-- The context `runAnte` hands to the admission function: the incoming context with
the branch as state handle and a new event manager. -/
def anteCtx (ctx : Context) (s : State) : Context :=
  (ctx.WithMultiStore (some (branchId s))).WithEventManager s.heap.eventManagers.length

/-- The heap in which `runAnte` invokes the admission function: the incoming heap with
the branch of store `r` and the new event manager allocated. -/
def anteHeap (r : StoreId) (s : State) : Heap :=
  (NewEventManager (s.heap.CacheMultiStore r).2).2

/-- The outcome of the admission function on the input `runAnte` gives it. -/
def anteResult (ante : AnteHandler) (ctx : Context) (r : StoreId) (tx : Tx) (isSimulate : Bool)
    (s : State) : (Context × Option Error) × Heap :=
  ante (anteCtx ctx s) tx isSimulate (anteHeap r s)

/-- The admission function acts on stores only by writes and deletions through the
state handle of the context it is given, and by creating new store objects. -/
def WritesThroughContext (ante : AnteHandler) : Prop :=
  ∀ (ctx : Context) (tx : Tx) (isSimulate : Bool) (h : Heap) (id : StoreId),
    ctx.MultiStore = some id →
    ∃ (ws : List (Key × Option Value)) (extra : List Store),
      (ante ctx tx isSimulate h).2.stores = (h.applyWrites id ws).stores ++ extra

/-- The value finally read for `k` after the writes `ws` (first element first) on top
of a store that read `old`. -/
def readAfter (ws : List (Key × Option Value)) (old : Option Value) (k : Key) : Option Value :=
  match lookupEntry k ws.reverse with
  | some v => v
  | none => old

/-- Store `r` is the same in heap `h2` as in heap `h`: the same object, and every key
reads the same value through it. -/
def StoreUnchanged (r : StoreId) (h h2 : Heap) : Prop :=
  h2.stores[r]? = h.stores[r]? ∧ ∀ k, h2.Get r k = h.Get r k

/-- The context `runAnte` returns when the admission function returns no error: the
context the admission function returned with the incoming store as state handle, or
the incoming context when the returned context is zero. -/
def postAnteCtx (IsZero : Context → Bool) (ante : AnteHandler) (ctx : Context) (r : StoreId)
    (tx : Tx) (isSimulate : Bool) (s : State) : Context :=
  if !IsZero (anteResult ante ctx r tx isSimulate s).1.1 then
    (anteResult ante ctx r tx isSimulate s).1.1.WithMultiStore (some r)
  else ctx

/-- The heap after the admission function and the commit of the branch. -/
def committedHeap (ante : AnteHandler) (ctx : Context) (r : StoreId) (tx : Tx)
    (isSimulate : Bool) (s : State) : Heap :=
  (anteResult ante ctx r tx isSimulate s).2.Write (branchId s)

/-- The calls `runAnte` makes when the admission function returns no error. -/
def committedTrace (ctx : Context) (r : StoreId) (tx : Tx) (isSimulate : Bool) (s : State) :
    List Call :=
  s.trace ++ [Call.cacheTxContext r (branchId s),
    Call.anteHandler (anteCtx ctx s) tx isSimulate, Call.write (branchId s)]

/-- The calls of the admission function recorded in a trace, oldest first, each with the
context, the transaction and the simulate flag it was given. -/
def anteCalls : List Call → List (Context × Tx × Bool)
  | [] => []
  | Call.anteHandler c t f :: rest => (c, t, f) :: anteCalls rest
  | Call.cacheTxContext _ _ :: rest => anteCalls rest
  | Call.write _ :: rest => anteCalls rest
  | Call.innerCheckTx _ _ _ :: rest => anteCalls rest
  | Call.innerDeliverTx _ _ _ :: rest => anteCalls rest
  | Call.innerSimulateTx _ _ _ :: rest => anteCalls rest

/-- The simulate flags of the calls of the admission function recorded in a trace. -/
def anteFlags (trace : List Call) : List Bool :=
  (anteCalls trace).map (fun c => c.2.2)

/-- The identifier of the event manager that `runAnte` creates in state `s`. -/
def anteEventManager (s : State) : EventManagerId := s.heap.eventManagers.length

/-- The admission function acts on event logs only by emitting events through the
event manager of the context it is given, and by creating new event managers. -/
def EmitsThroughContext (ante : AnteHandler) : Prop :=
  ∀ (ctx : Context) (tx : Tx) (isSimulate : Bool) (h : Heap) (em : EventManagerId),
    ctx.eventManager = some em →
    ∃ (evs : List Event) (extra : List (List Event)),
      (ante ctx tx isSimulate h).2.eventManagers = (h.EmitEvents em evs).eventManagers ++ extra

/-! ## Concrete inputs -/

/-- The zero test of `types/context.go`: a context is zero when it has no store. -/
def isZeroMs (c : Context) : Bool := c.ms.isNone

/-- An error an admission function may return. -/
def errUnauthorized : Error := Error.registered "sdk" 4 "unauthorized"

/-- An error an inner handler may return. -/
def errInner : Error := Error.registered "app" 7 "message failed"

/-- A heap with one root store holding a balance of 100, one gas meter and one event
manager that holds an event. -/
def heap0 : Heap :=
  { stores := [{ parent := none, entries := [("balance", some 100)] }],
    gasMeters := [{ limit := 1000, consumed := 0 }],
    eventManagers := [[{ kind := "begin", attributes := [] }]] }

/-- A state over `heap0` with an empty trace. -/
def state0 : State := { heap := heap0, trace := [] }

/-- A context whose handles are the objects of `heap0`. -/
def ctx0 : Context :=
  { ms := some 0, eventManager := some 0, gasMeter := some 0, checkTx := true,
    simulate := false, chainID := "chain-1", blockHeight := 7 }

/-- A message that passes its basic validation. -/
def msgOk : Msg := { typeURL := "/bank.MsgSend", ValidateBasic := none }

/-- A message whose basic validation fails. -/
def msgBad : Msg := { typeURL := "/bank.MsgSend", ValidateBasic := some errUnauthorized }

/-- A message whose basic validation fails with another error. -/
def msgBad2 : Msg := { typeURL := "/gov.MsgVote", ValidateBasic := some errInner }

/-- A transaction with one valid message. -/
def tx0 : Tx := { GetMsgs := [msgOk] }

/-- An admission function that writes and deletes through its context and then aborts. -/
def anteAbort : AnteHandler := fun ctx _ _ h =>
  match ctx.MultiStore with
  | none => ((ctx, some errUnauthorized), h)
  | some id => ((ctx, some errUnauthorized), (h.Set id "balance" 0).Delete id "sequence")

/-- An admission function that deducts a fee of 10 from the balance. -/
def anteDeductFee : AnteHandler := fun ctx _ _ h =>
  match ctx.MultiStore with
  | none => ((ctx, some errUnauthorized), h)
  | some id =>
    match h.Get id "balance" with
    | none => ((ctx, some errUnauthorized), h)
    | some bal =>
      if 10 ≤ bal then ((ctx, none), h.Set id "balance" (bal - 10))
      else ((ctx, some errUnauthorized), h)

/-- An admission function that returns a context with a new gas meter and a state
handle of its own choice. -/
def anteOtherStore : AnteHandler := fun ctx _ _ h =>
  (({ ctx with ms := some 5, gasMeter := some h.gasMeters.length }, none),
    { h with gasMeters := h.gasMeters ++ [{ limit := 50, consumed := 20 }] })

/-- An event an admission function may emit. -/
def evFee : Event := { kind := "fee", attributes := [("amount", "10")] }

/-- An admission function that deducts a fee of 10 from the balance and emits an event,
both through the context it is given. -/
def anteFeeEvent : AnteHandler := fun ctx tx isSimulate h =>
  match ctx.eventManager with
  | none => anteDeductFee ctx tx isSimulate h
  | some em =>
    ((anteDeductFee ctx tx isSimulate h).1, (anteDeductFee ctx tx isSimulate h).2.EmitEvents em [evFee])

/-- An admission function that records a consumption of 7 on the gas meter of the
context it is given and then aborts. -/
def anteConsumeAbort : AnteHandler := fun ctx _ _ h =>
  match ctx.gasMeter with
  | none => ((ctx, some errUnauthorized), h)
  | some m => ((ctx, some errUnauthorized), h.ConsumeGas m 7)

/-- An admission function that instantiates a gas meter with a consumption of 20, puts
it on the context it returns, and aborts. -/
def anteMeterAbort : AnteHandler := fun ctx _ _ h =>
  (({ ctx with gasMeter := some h.gasMeters.length }, some errUnauthorized),
    { h with gasMeters := h.gasMeters ++ [{ limit := 50, consumed := 20 }] })

/-- An admission function that deducts the fee and emits an event through the context
it is given, instantiates a gas meter, and returns a context without a store that
carries the new gas meter. -/
def anteZeroCtx : AnteHandler := fun ctx tx isSimulate h =>
  (({ ctx with ms := none, gasMeter := some h.gasMeters.length },
      (anteFeeEvent ctx tx isSimulate h).1.2),
    { (anteFeeEvent ctx tx isSimulate h).2 with
      gasMeters := (anteFeeEvent ctx tx isSimulate h).2.gasMeters ++
        [{ limit := 50, consumed := 20 }] })

/-- An admission function that succeeds in simulation and aborts otherwise. -/
def anteSimulateOnly : AnteHandler := fun ctx _ isSimulate h =>
  if isSimulate then ((ctx, none), h) else ((ctx, some errUnauthorized), h)

/-- An account store with one account, registered under address `[2]`. -/
def keeper0 : AccountKeeper :=
  { accounts := [{ address := [2], accountNumber := 4, sequence := 9 }] }

/-- An inner handler whose operations all fail, each with a populated response, and
leave the heap as it is. -/
def innerFail : TxHandler :=
  { CheckTx := fun _ _ _ h => (({ Code := 7, Data := [1], Log := "failed" }, some errInner), h)
    DeliverTx := fun _ _ _ h => (({ Code := 7, Data := [1], Log := "failed" }, some errInner), h)
    SimulateTx := fun _ _ _ h =>
      (({ GasInfo := { GasWanted := 5, GasUsed := 3 }, Result := some { Log := "failed" } },
        some errInner), h) }

/-- An inner handler whose operations all succeed and leave the heap as it is. -/
def innerOk : TxHandler :=
  { CheckTx := fun _ _ _ h => (({ Data := [1, 2], Log := "ok", GasUsed := 3 }, none), h)
    DeliverTx := fun _ _ _ h => (({ Data := [1, 2], Log := "ok", GasUsed := 3 }, none), h)
    SimulateTx := fun _ _ _ h =>
      (({ GasInfo := { GasWanted := 5, GasUsed := 3 }, Result := some { Log := "ok" } }, none), h) }

/-! ## Lemmas on stores -/

theorem lookupEntry_append (k : Key) (xs ys : List (Key × Option Value)) :
    lookupEntry k (xs ++ ys) =
      match lookupEntry k xs with
      | some v => some v
      | none => lookupEntry k ys := by
  induction xs with
  | nil => rfl
  | cons e es ih =>
    simp only [List.cons_append, lookupEntry]
    split
    · rfl
    · exact ih

theorem getAux_congr (st st' : List Store) (k : Key) :
    ∀ (fuel id : Nat), (∀ j, j ≤ id → st[j]? = st'[j]?) →
      getAux st fuel id k = getAux st' fuel id k := by
  intro fuel
  induction fuel with
  | zero => intro id _; rfl
  | succ n ih =>
    intro id h
    simp only [getAux]
    rw [← h id (le_refl _)]
    cases st[id]? with
    | none => rfl
    | some o =>
      simp only
      cases lookupEntry k o.entries with
      | some v => rfl
      | none =>
        cases o.parent with
        | none => rfl
        | some p =>
          simp only
          by_cases hp : p < id
          · rw [if_pos hp, if_pos hp]
            have hp' : @LT.lt Nat _ p id := hp
            exact ih p (fun j hj => h j (by omega))
          · rw [if_neg hp, if_neg hp]

theorem getAux_fuel (st : List Store) (k : Key) :
    ∀ (f f' id : Nat), id < f → id < f' → getAux st f id k = getAux st f' id k := by
  intro f
  induction f with
  | zero => intro f' id h; omega
  | succ n ih =>
    intro f' id h h'
    cases f' with
    | zero => omega
    | succ m =>
      simp only [getAux]
      cases st[id]? with
      | none => rfl
      | some o =>
        simp only
        cases lookupEntry k o.entries with
        | some v => rfl
        | none =>
          cases o.parent with
          | none => rfl
          | some p =>
            simp only
            by_cases hp : p < id
            · rw [if_pos hp, if_pos hp]
              have hp' : @LT.lt Nat _ p id := hp
              exact ih m p (by omega) (by omega)
            · rw [if_neg hp, if_neg hp]

theorem stores_modifyStore (h : Heap) (id : StoreId) (f : Store → Store) (j : Nat) :
    (h.modifyStore id f).stores[j]? =
      if j = id then (h.stores[id]?).map f else h.stores[j]? := by
  unfold Heap.modifyStore
  cases hs : h.stores[id]? with
  | none =>
    by_cases hj : j = id
    · subst hj; simp [hs]
    · simp [hj]
  | some o =>
    have hlt : id < h.stores.length := by
      rcases List.getElem?_eq_some.mp hs with ⟨hlt, _⟩
      exact hlt
    by_cases hj : j = id
    · subst hj; simp [List.getElem?_set, hlt]
    · have hne : id ≠ j := fun e => hj e.symm
      simp [List.getElem?_set, hj, hne]

theorem stores_applyWrites (id : StoreId) (ws : List (Key × Option Value)) :
    ∀ (h : Heap) (j : Nat), (h.applyWrites id ws).stores[j]? =
      if j = id then
        (h.stores[id]?).map (fun st => { st with entries := ws.reverse ++ st.entries })
      else h.stores[j]? := by
  induction ws with
  | nil =>
    intro h j
    by_cases hj : j = id
    · subst hj; simp [Heap.applyWrites]
    · simp [Heap.applyWrites, hj]
  | cons w ws ih =>
    intro h j
    simp only [Heap.applyWrites]
    rw [ih]
    by_cases hj : j = id
    · subst hj
      simp only [if_true, Heap.put, stores_modifyStore]
      cases h.stores[j]? with
      | none => rfl
      | some o => simp
    · simp [hj, Heap.put, stores_modifyStore]

theorem rest_modifyStore (h : Heap) (id : StoreId) (f : Store → Store) :
    (h.modifyStore id f).gasMeters = h.gasMeters ∧
      (h.modifyStore id f).eventManagers = h.eventManagers := by
  unfold Heap.modifyStore
  cases h.stores[id]? <;> simp

theorem rest_applyWrites (id : StoreId) (ws : List (Key × Option Value)) :
    ∀ (h : Heap), (h.applyWrites id ws).gasMeters = h.gasMeters ∧
      (h.applyWrites id ws).eventManagers = h.eventManagers := by
  induction ws with
  | nil => intro h; exact ⟨rfl, rfl⟩
  | cons w ws ih =>
    intro h
    simp only [Heap.applyWrites]
    rw [(ih _).1, (ih _).2]
    exact rest_modifyStore _ _ _

theorem rest_Write (h : Heap) (id : StoreId) :
    (h.Write id).gasMeters = h.gasMeters ∧ (h.Write id).eventManagers = h.eventManagers := by
  unfold Heap.Write
  cases h.stores[id]? with
  | none => exact ⟨rfl, rfl⟩
  | some o =>
    simp only
    cases o.parent with
    | none => exact ⟨rfl, rfl⟩
    | some p =>
      simp only
      rw [(rest_modifyStore _ _ _).1, (rest_modifyStore _ _ _).2]
      exact rest_applyWrites _ _ _

theorem getAux_append_left (st tail : List Store) (k : Key) (f r : Nat) (hr : r < st.length) :
    getAux (st ++ tail) f r k = getAux st f r k := by
  apply getAux_congr
  intro j hj
  exact List.getElem?_append_left (by omega)

theorem getElem?_branch (st extra : List Store) (b : Store) :
    (st ++ b :: extra)[st.length]? = some b := by
  rw [List.getElem?_append_right (le_refl _)]
  simp

/-- Writes through the handle of the newest object of a heap only extend its entries. -/
theorem applyWrites_last (par : Option StoreId) (gm : List GasMeter) (em : List (List Event))
    (st : List Store) (ws : List (Key × Option Value)) :
    ∀ (es : List (Key × Option Value)),
      (Heap.applyWrites (Heap.mk (st ++ [Store.mk par es]) gm em) st.length ws).stores =
        st ++ [Store.mk par (ws.reverse ++ es)] := by
  induction ws with
  | nil => intro es; simp [Heap.applyWrites]
  | cons w ws ih =>
    intro es
    simp only [Heap.applyWrites, Heap.put, Heap.modifyStore]
    rw [getElem?_branch]
    simp only
    have h2 : (st ++ [Store.mk par es]).set st.length (Store.mk par ((w.1, w.2) :: es)) =
        st ++ [Store.mk par ((w.1, w.2) :: es)] := by simp
    rw [h2, ih]
    simp

/-- Reading through a branch: its own newest entry, else the read of its parent. -/
theorem Get_branch (h : Heap) (st extra : List Store) (r : Nat)
    (es : List (Key × Option Value)) (k : Key)
    (hs : h.stores = st ++ Store.mk (some r) es :: extra)
    (hr : r < st.length) :
    h.Get st.length k =
      match lookupEntry k es with
      | some v => v
      | none => getAux st (r + 1) r k := by
  have h1 : h.stores[st.length]? = some (Store.mk (some r) es) := by
    rw [hs]; exact getElem?_branch _ _ _
  have h2 : getAux h.stores st.length r k = getAux st (r + 1) r k := by
    rw [getAux_fuel _ _ st.length (r + 1) r hr (Nat.lt_succ_self r), hs,
      getAux_append_left _ _ _ _ _ hr]
  generalize getAux st (r + 1) r k = R at h2
  simp only [Heap.Get, getAux, h1]
  cases lookupEntry k es with
  | some v => rfl
  | none =>
    simp only
    rw [if_pos hr, h2]

/-- Reading through a handle older than everything that follows it. -/
theorem Get_older (h : Heap) (st tail : List Store) (r : Nat) (k : Key)
    (hs : h.stores = st ++ tail) (hr : r < st.length) :
    h.Get r k = getAux st (r + 1) r k := by
  simp only [Heap.Get]
  rw [hs, getAux_append_left _ _ _ _ _ hr]

/-- The store objects after the commit of a branch that sits right after `st`. -/
theorem stores_Write (h : Heap) (st extra : List Store) (r : Nat)
    (es : List (Key × Option Value))
    (hs : h.stores = st ++ Store.mk (some r) es :: extra)
    (hr : r < st.length) (j : Nat) :
    (h.Write st.length).stores[j]? =
      if j = st.length then some (Store.mk (some r) [])
      else if j = r then (st[r]?).map (fun o => { o with entries := es ++ o.entries })
      else h.stores[j]? := by
  have h1 : h.stores[st.length]? = some (Store.mk (some r) es) := by
    rw [hs]; exact getElem?_branch _ _ _
  have hne : r ≠ st.length := by omega
  simp only [Heap.Write, h1]
  rw [stores_modifyStore, stores_applyWrites, stores_applyWrites]
  by_cases hj : j = st.length
  · subst hj
    simp [hne.symm, h1]
  · simp only [hj, if_false, List.reverse_reverse]
    by_cases hjr : j = r
    · subst hjr
      simp only [if_true]
      rw [hs, List.getElem?_append_left hr]
    · simp [hjr]

/-- After the commit the parent reads what the branch read before the commit. -/
theorem Get_Write (h : Heap) (st extra : List Store) (r : Nat)
    (es : List (Key × Option Value)) (k : Key)
    (hs : h.stores = st ++ Store.mk (some r) es :: extra)
    (hr : r < st.length) :
    (h.Write st.length).Get r k = h.Get st.length k := by
  rw [Get_branch h st extra r es k hs hr]
  have hne : r ≠ st.length := by omega
  have hro : st[r]? = some st[r] := List.getElem?_eq_getElem hr
  have h1 : (h.Write st.length).stores[r]? =
      some { st[r] with entries := es ++ st[r].entries } := by
    rw [stores_Write h st extra r es hs hr, if_neg hne, if_pos rfl, hro]; rfl
  have h2 : ∀ (p : Nat), p < r →
      getAux (h.Write st.length).stores r p k = getAux st r p k := by
    intro p hp
    apply getAux_congr
    intro j hj
    rw [stores_Write h st extra r es hs hr, if_neg (by omega), if_neg (by omega), hs]
    exact List.getElem?_append_left (by omega)
  simp only [Heap.Get, getAux, h1, hro, lookupEntry_append]
  cases lookupEntry k es with
  | some v => rfl
  | none =>
    simp only
    cases lookupEntry k st[r].entries with
    | some v => rfl
    | none =>
      simp only
      cases st[r].parent with
      | none => rfl
      | some p =>
        simp only
        by_cases hp : p < r
        · rw [if_pos hp, if_pos hp]
          exact h2 p hp
        · rw [if_neg hp, if_neg hp]

/-! ## Lemmas on `runAnte` -/

theorem runAnte_invalid (IsZero : Context → Bool) (txh : legacyAnteTxHandler) (ctx : Context)
    (tx : Tx) (txBytes : List Nat) (isSimulate : Bool) (s : State) (e : Error)
    (hinv : validateBasicTxMsgs tx.GetMsgs = some e) :
    txh.runAnte IsZero ctx tx txBytes isSimulate s = some ((Context.zero, some e), s) := by
  simp only [legacyAnteTxHandler.runAnte, hinv]

theorem runAnte_nil (IsZero : Context → Bool) (txh : legacyAnteTxHandler) (ctx : Context)
    (tx : Tx) (txBytes : List Nat) (isSimulate : Bool) (s : State)
    (hvalid : validateBasicTxMsgs tx.GetMsgs = none) (hnil : txh.anteHandler = none) :
    txh.runAnte IsZero ctx tx txBytes isSimulate s = some ((ctx, none), s) := by
  simp only [legacyAnteTxHandler.runAnte, hvalid, hnil]

theorem runAnte_ante (IsZero : Context → Bool) (txh : legacyAnteTxHandler) (ante : AnteHandler)
    (ctx : Context) (r : StoreId) (tx : Tx) (txBytes : List Nat) (isSimulate : Bool) (s : State)
    (hvalid : validateBasicTxMsgs tx.GetMsgs = none) (hante : txh.anteHandler = some ante)
    (hms : ctx.MultiStore = some r) :
    txh.runAnte IsZero ctx tx txBytes isSimulate s =
      match (anteResult ante ctx r tx isSimulate s).1.2 with
      | some e =>
        some ((Context.zero, some e),
          { heap := (anteResult ante ctx r tx isSimulate s).2,
            trace := s.trace ++ [Call.cacheTxContext r (branchId s),
              Call.anteHandler (anteCtx ctx s) tx isSimulate] })
      | none =>
        some ((if !IsZero (anteResult ante ctx r tx isSimulate s).1.1 then
              (anteResult ante ctx r tx isSimulate s).1.1.WithMultiStore (some r) else ctx, none),
          { heap := (anteResult ante ctx r tx isSimulate s).2.Write (branchId s),
            trace := s.trace ++ [Call.cacheTxContext r (branchId s),
              Call.anteHandler (anteCtx ctx s) tx isSimulate, Call.write (branchId s)] }) := by
  simp only [legacyAnteTxHandler.runAnte, hvalid, hante, cacheTxContext, hms, anteResult,
    anteCtx, anteHeap, branchId, Heap.CacheMultiStore, NewEventManager]
  cases (ante ((ctx.WithMultiStore (some s.heap.stores.length)).WithEventManager
      s.heap.eventManagers.length) tx isSimulate _).1.2 with
  | some e => simp
  | none => simp

/-- The store objects after an admission function that writes through its context:
the old objects, the branch with the writes as entries, and new objects. -/
theorem stores_anteResult (ante : AnteHandler) (ctx : Context) (r : StoreId) (tx : Tx)
    (isSimulate : Bool) (s : State) (hconf : WritesThroughContext ante) :
    ∃ (ws : List (Key × Option Value)) (extra : List Store),
      (anteResult ante ctx r tx isSimulate s).2.stores =
        s.heap.stores ++ Store.mk (some r) ws.reverse :: extra := by
  obtain ⟨ws, extra, h⟩ := hconf (anteCtx ctx s) tx isSimulate (anteHeap r s) (branchId s) rfl
  refine ⟨ws, extra, ?_⟩
  rw [anteResult, h]
  have h2 := applyWrites_last (some r) s.heap.gasMeters (s.heap.eventManagers ++ [[]])
    s.heap.stores ws []
  simp only [List.append_nil] at h2
  simp only [anteHeap, NewEventManager, Heap.CacheMultiStore, branchId]
  rw [h2]
  simp

/-- An admission function that writes through its context leaves the older stores. -/
theorem StoreUnchanged_anteResult (ante : AnteHandler) (ctx : Context) (r : StoreId) (tx : Tx)
    (isSimulate : Bool) (s : State) (hconf : WritesThroughContext ante)
    (hr : r < s.heap.stores.length) :
    StoreUnchanged r s.heap (anteResult ante ctx r tx isSimulate s).2 := by
  obtain ⟨ws, extra, h⟩ := stores_anteResult ante ctx r tx isSimulate s hconf
  have hr' : @LT.lt Nat _ r s.heap.stores.length := hr
  constructor
  · rw [h]; exact List.getElem?_append_left hr'
  · intro k
    rw [Get_older _ _ _ r k h hr', Get_older s.heap s.heap.stores [] r k (by simp) hr']

/-! ## Lemmas on the three operations -/

theorem CheckTx_of_runAnte_err (IsZero : Context → Bool) (txh : legacyAnteTxHandler)
    (ctx c : Context) (tx : Tx) (req : RequestCheckTx) (s s1 : State) (e : Error)
    (h : txh.runAnte IsZero ctx tx req.Tx false s = some ((c, some e), s1)) :
    txh.CheckTx IsZero ctx tx req s = some (({}, some e), s1) := by
  simp only [legacyAnteTxHandler.CheckTx, h]

theorem DeliverTx_of_runAnte_err (IsZero : Context → Bool) (txh : legacyAnteTxHandler)
    (ctx c : Context) (tx : Tx) (req : RequestDeliverTx) (s s1 : State) (e : Error)
    (h : txh.runAnte IsZero ctx tx req.Tx false s = some ((c, some e), s1)) :
    txh.DeliverTx IsZero ctx tx req s = some (({}, some e), s1) := by
  simp only [legacyAnteTxHandler.DeliverTx, h]

theorem SimulateTx_of_runAnte_err (IsZero : Context → Bool) (txh : legacyAnteTxHandler)
    (ctx c : Context) (tx : Tx) (req : RequestSimulateTx) (s s1 : State) (e : Error)
    (h : txh.runAnte IsZero ctx tx req.TxBytes true s = some ((c, some e), s1)) :
    txh.SimulateTx IsZero ctx tx req s = some (({}, some e), s1) := by
  simp only [legacyAnteTxHandler.SimulateTx, h]

theorem CheckTx_of_runAnte_ok (IsZero : Context → Bool) (txh : legacyAnteTxHandler)
    (ctx c : Context) (tx : Tx) (req : RequestCheckTx) (s s1 : State)
    (h : txh.runAnte IsZero ctx tx req.Tx false s = some ((c, none), s1)) :
    txh.CheckTx IsZero ctx tx req s =
      some ((match (txh.inner.CheckTx c tx req s1.heap).1.2 with
          | some err => ({}, some err)
          | none => ({ Data := (txh.inner.CheckTx c tx req s1.heap).1.1.Data,
                       Events := (txh.inner.CheckTx c tx req s1.heap).1.1.Events,
                       Log := (txh.inner.CheckTx c tx req s1.heap).1.1.Log }, none)),
        { heap := (txh.inner.CheckTx c tx req s1.heap).2,
          trace := s1.trace ++ [Call.innerCheckTx c tx req] }) := by
  simp only [legacyAnteTxHandler.CheckTx, h]
  cases (txh.inner.CheckTx c tx req s1.heap).1.2 <;> rfl

theorem DeliverTx_of_runAnte_ok (IsZero : Context → Bool) (txh : legacyAnteTxHandler)
    (ctx c : Context) (tx : Tx) (req : RequestDeliverTx) (s s1 : State)
    (h : txh.runAnte IsZero ctx tx req.Tx false s = some ((c, none), s1)) :
    txh.DeliverTx IsZero ctx tx req s =
      some ((match (txh.inner.DeliverTx c tx req s1.heap).1.2 with
          | some err => ({}, some err)
          | none => ({ Data := (txh.inner.DeliverTx c tx req s1.heap).1.1.Data,
                       Events := (txh.inner.DeliverTx c tx req s1.heap).1.1.Events,
                       Log := (txh.inner.DeliverTx c tx req s1.heap).1.1.Log }, none)),
        { heap := (txh.inner.DeliverTx c tx req s1.heap).2,
          trace := s1.trace ++ [Call.innerDeliverTx c tx req] }) := by
  simp only [legacyAnteTxHandler.DeliverTx, h]
  cases (txh.inner.DeliverTx c tx req s1.heap).1.2 <;> rfl

theorem SimulateTx_of_runAnte_ok (IsZero : Context → Bool) (txh : legacyAnteTxHandler)
    (ctx c : Context) (tx : Tx) (req : RequestSimulateTx) (s s1 : State)
    (h : txh.runAnte IsZero ctx tx req.TxBytes true s = some ((c, none), s1)) :
    txh.SimulateTx IsZero ctx tx req s =
      some ((match (txh.inner.SimulateTx c tx req s1.heap).1.2 with
          | some err => ({}, some err)
          | none => ({ Result := (txh.inner.SimulateTx c tx req s1.heap).1.1.Result }, none)),
        { heap := (txh.inner.SimulateTx c tx req s1.heap).2,
          trace := s1.trace ++ [Call.innerSimulateTx c tx req] }) := by
  simp only [legacyAnteTxHandler.SimulateTx, h]
  cases (txh.inner.SimulateTx c tx req s1.heap).1.2 <;> rfl

/-- The outcome of `runAnte` when the admission function returns an error. -/
theorem runAnte_ante_err (IsZero : Context → Bool) (txh : legacyAnteTxHandler)
    (ante : AnteHandler) (ctx : Context) (r : StoreId) (tx : Tx) (txBytes : List Nat)
    (isSimulate : Bool) (s : State) (e : Error)
    (hvalid : validateBasicTxMsgs tx.GetMsgs = none) (hante : txh.anteHandler = some ante)
    (hms : ctx.MultiStore = some r)
    (herr : (anteResult ante ctx r tx isSimulate s).1.2 = some e) :
    txh.runAnte IsZero ctx tx txBytes isSimulate s =
      some ((Context.zero, some e),
        { heap := (anteResult ante ctx r tx isSimulate s).2,
          trace := s.trace ++ [Call.cacheTxContext r (branchId s),
            Call.anteHandler (anteCtx ctx s) tx isSimulate] }) := by
  rw [runAnte_ante IsZero txh ante ctx r tx txBytes isSimulate s hvalid hante hms, herr]

/-- The outcome of `runAnte` when the admission function returns no error. -/
theorem runAnte_ante_ok (IsZero : Context → Bool) (txh : legacyAnteTxHandler)
    (ante : AnteHandler) (ctx : Context) (r : StoreId) (tx : Tx) (txBytes : List Nat)
    (isSimulate : Bool) (s : State)
    (hvalid : validateBasicTxMsgs tx.GetMsgs = none) (hante : txh.anteHandler = some ante)
    (hms : ctx.MultiStore = some r)
    (hok : (anteResult ante ctx r tx isSimulate s).1.2 = none) :
    txh.runAnte IsZero ctx tx txBytes isSimulate s =
      some ((if !IsZero (anteResult ante ctx r tx isSimulate s).1.1 then
            (anteResult ante ctx r tx isSimulate s).1.1.WithMultiStore (some r) else ctx, none),
        { heap := (anteResult ante ctx r tx isSimulate s).2.Write (branchId s),
          trace := s.trace ++ [Call.cacheTxContext r (branchId s),
            Call.anteHandler (anteCtx ctx s) tx isSimulate, Call.write (branchId s)] }) := by
  rw [runAnte_ante IsZero txh ante ctx r tx txBytes isSimulate s hvalid hante hms, hok]

theorem WritesThroughContext_anteAbort : WritesThroughContext anteAbort := by
  intro ctx tx isSimulate h id hid
  refine ⟨[("balance", some 0), ("sequence", none)], [], ?_⟩
  simp [anteAbort, hid, Heap.applyWrites, Heap.Set, Heap.Delete]

theorem WritesThroughContext_anteDeductFee : WritesThroughContext anteDeductFee := by
  intro ctx tx isSimulate h id hid
  simp only [anteDeductFee, hid]
  cases h.Get id "balance" with
  | none => exact ⟨[], [], by simp [Heap.applyWrites]⟩
  | some bal =>
    by_cases hb : 10 ≤ bal
    · exact ⟨[("balance", some (bal - 10))], [], by simp [hb, Heap.applyWrites, Heap.Set]⟩
    · exact ⟨[], [], by simp [hb, Heap.applyWrites]⟩

/-- After the commit the root store reads what the branch read at the end of the
admission function, which is the old root store with the writes on top. -/
theorem Get_committedHeap (ante : AnteHandler) (ctx : Context) (r : StoreId) (tx : Tx)
    (isSimulate : Bool) (s : State) (hconf : WritesThroughContext ante)
    (hr : r < s.heap.stores.length) :
    ∃ (ws : List (Key × Option Value)) (extra : List Store),
      (anteResult ante ctx r tx isSimulate s).2.stores =
        ((anteHeap r s).applyWrites (branchId s) ws).stores ++ extra ∧
      ∀ k, (committedHeap ante ctx r tx isSimulate s).Get r k =
          (anteResult ante ctx r tx isSimulate s).2.Get (branchId s) k ∧
        (committedHeap ante ctx r tx isSimulate s).Get r k = readAfter ws (s.heap.Get r k) k := by
  obtain ⟨ws, extra, h⟩ := hconf (anteCtx ctx s) tx isSimulate (anteHeap r s) (branchId s) rfl
  have h2 := applyWrites_last (some r) s.heap.gasMeters (s.heap.eventManagers ++ [[]])
    s.heap.stores ws []
  simp only [List.append_nil] at h2
  have h3 : (anteResult ante ctx r tx isSimulate s).2.stores =
      s.heap.stores ++ Store.mk (some r) ws.reverse :: extra := by
    rw [anteResult, h]
    simp only [anteHeap, NewEventManager, Heap.CacheMultiStore, branchId]
    rw [h2]
    simp
  have hr' : @LT.lt Nat _ r s.heap.stores.length := hr
  refine ⟨ws, extra, h, ?_⟩
  intro k
  have h4 := Get_Write _ s.heap.stores extra r ws.reverse k h3 hr'
  have h5 := Get_branch _ s.heap.stores extra r ws.reverse k h3 hr'
  have h6 := Get_older s.heap s.heap.stores [] r k (by simp) hr'
  refine ⟨h4, ?_⟩
  rw [committedHeap, branchId, h4, h5, readAfter, h6]

/-- The fee deduction on the input `runAnte` gives it: with a balance of at least 10
it returns no error, and the branch then reads a balance that is 10 lower. -/
theorem anteDeductFee_result (ctx : Context) (r : StoreId) (tx : Tx) (isSimulate : Bool)
    (s : State) (bal : Nat) (hr : r < s.heap.stores.length)
    (hbal : s.heap.Get r "balance" = some bal) (hten : 10 ≤ bal) :
    (anteResult anteDeductFee ctx r tx isSimulate s).1.2 = none ∧
      (anteResult anteDeductFee ctx r tx isSimulate s).2.Get (branchId s) "balance" =
        some (bal - 10) := by
  have hr' : @LT.lt Nat _ r s.heap.stores.length := hr
  have h1 : (anteHeap r s).Get (branchId s) "balance" = some bal := by
    have h := Get_branch (anteHeap r s) s.heap.stores [] r [] "balance" rfl hr'
    rw [branchId, h]
    exact hbal
  have h2 : anteResult anteDeductFee ctx r tx isSimulate s =
      ((anteCtx ctx s, none), (anteHeap r s).Set (branchId s) "balance" (bal - 10)) := by
    have hc : (anteCtx ctx s).MultiStore = some (branchId s) := rfl
    simp only [anteResult, anteDeductFee, hc, h1, hten, if_true]
  have h3 : ((anteHeap r s).Set (branchId s) "balance" (bal - 10)).stores =
      s.heap.stores ++ Store.mk (some r) [("balance", some (bal - 10))] :: [] :=
    applyWrites_last (some r) s.heap.gasMeters (s.heap.eventManagers ++ [[]])
      s.heap.stores [("balance", some (bal - 10))] []
  rw [h2]
  refine ⟨rfl, ?_⟩
  have h4 := Get_branch _ s.heap.stores [] r [("balance", some (bal - 10))] "balance" h3 hr'
  show ((anteHeap r s).Set (branchId s) "balance" (bal - 10)).Get s.heap.stores.length
    "balance" = some (bal - 10)
  rw [h4]
  simp [lookupEntry]

/-! ## Lemmas on `validateBasicTxMsgs` -/

theorem loop_eq_none_iff (msgs : List Msg) :
    validateBasicTxMsgs.loop msgs = none ↔ ∀ m ∈ msgs, m.ValidateBasic = none := by
  induction msgs with
  | nil => simp [validateBasicTxMsgs.loop]
  | cons m rest ih =>
    simp only [validateBasicTxMsgs.loop, List.mem_cons, forall_eq_or_imp]
    cases hm : m.ValidateBasic with
    | none => simpa using ih
    | some e => simp

theorem loop_first_failure (pre : List Msg) (m : Msg) (post : List Msg) (e : Error)
    (hpre : ∀ x ∈ pre, x.ValidateBasic = none) (hm : m.ValidateBasic = some e) :
    validateBasicTxMsgs.loop (pre ++ m :: post) = some e := by
  induction pre with
  | nil => simp [validateBasicTxMsgs.loop, hm]
  | cons x xs ih =>
    have hx : x.ValidateBasic = none := hpre x (List.mem_cons_self _ _)
    simp only [List.cons_append, validateBasicTxMsgs.loop, hx]
    exact ih (fun y hy => hpre y (List.mem_cons_of_mem _ hy))

theorem exists_first_failure (msgs : List Msg)
    (h : ¬ ∀ m ∈ msgs, m.ValidateBasic = none) :
    ∃ (pre : List Msg) (m : Msg) (post : List Msg) (e : Error),
      msgs = pre ++ m :: post ∧ (∀ x ∈ pre, x.ValidateBasic = none) ∧
      m.ValidateBasic = some e := by
  induction msgs with
  | nil => exact absurd (fun m hm => by cases hm) h
  | cons m rest ih =>
    cases hm : m.ValidateBasic with
    | some e => exact ⟨[], m, rest, e, rfl, (fun x hx => by cases hx), hm⟩
    | none =>
      have hrest : ¬ ∀ x ∈ rest, x.ValidateBasic = none := by
        intro hall
        apply h
        intro x hx
        rcases List.mem_cons.mp hx with rfl | hx
        · exact hm
        · exact hall x hx
      obtain ⟨pre, m2, post, e, heq, hpre, hm2⟩ := ih hrest
      refine ⟨m :: pre, m2, post, e, by rw [heq]; rfl, ?_, hm2⟩
      intro x hx
      rcases List.mem_cons.mp hx with rfl | hx
      · exact hm
      · exact hpre x hx

theorem validateBasicTxMsgs_of_ne_nil (msgs : List Msg) (h : msgs ≠ []) :
    validateBasicTxMsgs msgs = validateBasicTxMsgs.loop msgs := by
  have hl : msgs.length ≠ 0 := fun h0 => h (List.length_eq_zero.mp h0)
  simp only [validateBasicTxMsgs, hl, if_false]

/-! ## Lemmas on traces -/

theorem anteCalls_append (xs ys : List Call) :
    anteCalls (xs ++ ys) = anteCalls xs ++ anteCalls ys := by
  induction xs with
  | nil => rfl
  | cons c cs ih => cases c <;> simp [anteCalls, ih]

/-- With a configured admission function CheckTx applies it once, with the flag false:
the trace gains that call, and the outcome is computed from its result. -/
theorem CheckTx_applies_ante (IsZero : Context → Bool) (txh : legacyAnteTxHandler)
    (ante : AnteHandler) (ctx : Context) (r : StoreId) (tx : Tx) (req : RequestCheckTx)
    (s : State)
    (hvalid : validateBasicTxMsgs tx.GetMsgs = none) (hante : txh.anteHandler = some ante)
    (hms : ctx.MultiStore = some r) :
    ∃ out, txh.CheckTx IsZero ctx tx req s = some out ∧
      anteCalls out.2.trace = anteCalls s.trace ++ [(anteCtx ctx s, tx, false)] ∧
      (∀ e, (ante (anteCtx ctx s) tx false (anteHeap r s)).1.2 = some e →
        out.1 = ({}, some e) ∧ out.2.heap = (ante (anteCtx ctx s) tx false (anteHeap r s)).2) ∧
      ((ante (anteCtx ctx s) tx false (anteHeap r s)).1.2 = none →
        out.1.2 = (txh.inner.CheckTx (postAnteCtx IsZero ante ctx r tx false s) tx req
          (committedHeap ante ctx r tx false s)).1.2 ∧
        out.2.heap = (txh.inner.CheckTx (postAnteCtx IsZero ante ctx r tx false s) tx req
          (committedHeap ante ctx r tx false s)).2) := by
  cases herr : (anteResult ante ctx r tx false s).1.2 with
  | some e =>
    have hrun := runAnte_ante_err IsZero txh ante ctx r tx req.Tx false s e hvalid hante hms herr
    refine ⟨_, CheckTx_of_runAnte_err IsZero txh ctx _ tx req s _ e hrun, ?_, ?_, ?_⟩
    · simp [anteCalls_append, anteCalls]
    · intro e2 he2
      have he3 : (anteResult ante ctx r tx false s).1.2 = some e2 := he2
      rw [herr] at he3
      cases he3
      exact ⟨rfl, rfl⟩
    · intro hn
      have hn2 : (anteResult ante ctx r tx false s).1.2 = none := hn
      rw [herr] at hn2
      cases hn2
  | none =>
    have hrun := runAnte_ante_ok IsZero txh ante ctx r tx req.Tx false s hvalid hante hms herr
    refine ⟨_, CheckTx_of_runAnte_ok IsZero txh ctx _ tx req s _ hrun, ?_, ?_, ?_⟩
    · simp [anteCalls_append, anteCalls]
    · intro e2 he2
      have he3 : (anteResult ante ctx r tx false s).1.2 = some e2 := he2
      rw [herr] at he3
      cases he3
    · intro _
      refine ⟨?_, rfl⟩
      simp only [postAnteCtx, committedHeap]
      cases (txh.inner.CheckTx _ tx req _).1.2 <;> rfl

/-- With a configured admission function DeliverTx applies it once, with the flag false:
the trace gains that call, and the outcome is computed from its result. -/
theorem DeliverTx_applies_ante (IsZero : Context → Bool) (txh : legacyAnteTxHandler)
    (ante : AnteHandler) (ctx : Context) (r : StoreId) (tx : Tx) (req : RequestDeliverTx)
    (s : State)
    (hvalid : validateBasicTxMsgs tx.GetMsgs = none) (hante : txh.anteHandler = some ante)
    (hms : ctx.MultiStore = some r) :
    ∃ out, txh.DeliverTx IsZero ctx tx req s = some out ∧
      anteCalls out.2.trace = anteCalls s.trace ++ [(anteCtx ctx s, tx, false)] ∧
      (∀ e, (ante (anteCtx ctx s) tx false (anteHeap r s)).1.2 = some e →
        out.1 = ({}, some e) ∧ out.2.heap = (ante (anteCtx ctx s) tx false (anteHeap r s)).2) ∧
      ((ante (anteCtx ctx s) tx false (anteHeap r s)).1.2 = none →
        out.1.2 = (txh.inner.DeliverTx (postAnteCtx IsZero ante ctx r tx false s) tx req
          (committedHeap ante ctx r tx false s)).1.2 ∧
        out.2.heap = (txh.inner.DeliverTx (postAnteCtx IsZero ante ctx r tx false s) tx req
          (committedHeap ante ctx r tx false s)).2) := by
  cases herr : (anteResult ante ctx r tx false s).1.2 with
  | some e =>
    have hrun := runAnte_ante_err IsZero txh ante ctx r tx req.Tx false s e hvalid hante hms herr
    refine ⟨_, DeliverTx_of_runAnte_err IsZero txh ctx _ tx req s _ e hrun, ?_, ?_, ?_⟩
    · simp [anteCalls_append, anteCalls]
    · intro e2 he2
      have he3 : (anteResult ante ctx r tx false s).1.2 = some e2 := he2
      rw [herr] at he3
      cases he3
      exact ⟨rfl, rfl⟩
    · intro hn
      have hn2 : (anteResult ante ctx r tx false s).1.2 = none := hn
      rw [herr] at hn2
      cases hn2
  | none =>
    have hrun := runAnte_ante_ok IsZero txh ante ctx r tx req.Tx false s hvalid hante hms herr
    refine ⟨_, DeliverTx_of_runAnte_ok IsZero txh ctx _ tx req s _ hrun, ?_, ?_, ?_⟩
    · simp [anteCalls_append, anteCalls]
    · intro e2 he2
      have he3 : (anteResult ante ctx r tx false s).1.2 = some e2 := he2
      rw [herr] at he3
      cases he3
    · intro _
      refine ⟨?_, rfl⟩
      simp only [postAnteCtx, committedHeap]
      cases (txh.inner.DeliverTx _ tx req _).1.2 <;> rfl

/-- With a configured admission function SimulateTx applies it once, with the flag true:
the trace gains that call, and the outcome is computed from its result. -/
theorem SimulateTx_applies_ante (IsZero : Context → Bool) (txh : legacyAnteTxHandler)
    (ante : AnteHandler) (ctx : Context) (r : StoreId) (tx : Tx) (req : RequestSimulateTx)
    (s : State)
    (hvalid : validateBasicTxMsgs tx.GetMsgs = none) (hante : txh.anteHandler = some ante)
    (hms : ctx.MultiStore = some r) :
    ∃ out, txh.SimulateTx IsZero ctx tx req s = some out ∧
      anteCalls out.2.trace = anteCalls s.trace ++ [(anteCtx ctx s, tx, true)] ∧
      (∀ e, (ante (anteCtx ctx s) tx true (anteHeap r s)).1.2 = some e →
        out.1 = ({}, some e) ∧ out.2.heap = (ante (anteCtx ctx s) tx true (anteHeap r s)).2) ∧
      ((ante (anteCtx ctx s) tx true (anteHeap r s)).1.2 = none →
        out.1.2 = (txh.inner.SimulateTx (postAnteCtx IsZero ante ctx r tx true s) tx req
          (committedHeap ante ctx r tx true s)).1.2 ∧
        out.2.heap = (txh.inner.SimulateTx (postAnteCtx IsZero ante ctx r tx true s) tx req
          (committedHeap ante ctx r tx true s)).2) := by
  cases herr : (anteResult ante ctx r tx true s).1.2 with
  | some e =>
    have hrun :=
      runAnte_ante_err IsZero txh ante ctx r tx req.TxBytes true s e hvalid hante hms herr
    refine ⟨_, SimulateTx_of_runAnte_err IsZero txh ctx _ tx req s _ e hrun, ?_, ?_, ?_⟩
    · simp [anteCalls_append, anteCalls]
    · intro e2 he2
      have he3 : (anteResult ante ctx r tx true s).1.2 = some e2 := he2
      rw [herr] at he3
      cases he3
      exact ⟨rfl, rfl⟩
    · intro hn
      have hn2 : (anteResult ante ctx r tx true s).1.2 = none := hn
      rw [herr] at hn2
      cases hn2
  | none =>
    have hrun := runAnte_ante_ok IsZero txh ante ctx r tx req.TxBytes true s hvalid hante hms herr
    refine ⟨_, SimulateTx_of_runAnte_ok IsZero txh ctx _ tx req s _ hrun, ?_, ?_, ?_⟩
    · simp [anteCalls_append, anteCalls]
    · intro e2 he2
      have he3 : (anteResult ante ctx r tx true s).1.2 = some e2 := he2
      rw [herr] at he3
      cases he3
    · intro _
      refine ⟨?_, rfl⟩
      simp only [postAnteCtx, committedHeap]
      cases (txh.inner.SimulateTx _ tx req _).1.2 <;> rfl

/-- The success path of CheckTx after `runAnte`: the payload of the inner response. -/
theorem CheckTx_success (IsZero : Context → Bool) (txh : legacyAnteTxHandler)
    (ctx c : Context) (tx : Tx) (req : RequestCheckTx) (s s1 : State)
    (hrun : txh.runAnte IsZero ctx tx req.Tx false s = some ((c, none), s1))
    (hin : (txh.inner.CheckTx c tx req s1.heap).1.2 = none) :
    ∃ out, txh.CheckTx IsZero ctx tx req s = some out ∧ out.1.2 = none ∧
      out.1.1.Data = (txh.inner.CheckTx c tx req s1.heap).1.1.Data ∧
      out.1.1.Events = (txh.inner.CheckTx c tx req s1.heap).1.1.Events ∧
      out.1.1.Log = (txh.inner.CheckTx c tx req s1.heap).1.1.Log ∧
      out.2.trace = s1.trace ++ [Call.innerCheckTx c tx req] ∧
      out.2.heap = (txh.inner.CheckTx c tx req s1.heap).2 := by
  have h := CheckTx_of_runAnte_ok IsZero txh ctx c tx req s s1 hrun
  rw [hin] at h
  exact ⟨_, h, rfl, rfl, rfl, rfl, rfl, rfl⟩

/-- The success path of DeliverTx after `runAnte`: the payload of the inner response. -/
theorem DeliverTx_success (IsZero : Context → Bool) (txh : legacyAnteTxHandler)
    (ctx c : Context) (tx : Tx) (req : RequestDeliverTx) (s s1 : State)
    (hrun : txh.runAnte IsZero ctx tx req.Tx false s = some ((c, none), s1))
    (hin : (txh.inner.DeliverTx c tx req s1.heap).1.2 = none) :
    ∃ out, txh.DeliverTx IsZero ctx tx req s = some out ∧ out.1.2 = none ∧
      out.1.1.Data = (txh.inner.DeliverTx c tx req s1.heap).1.1.Data ∧
      out.1.1.Events = (txh.inner.DeliverTx c tx req s1.heap).1.1.Events ∧
      out.1.1.Log = (txh.inner.DeliverTx c tx req s1.heap).1.1.Log ∧
      out.2.trace = s1.trace ++ [Call.innerDeliverTx c tx req] ∧
      out.2.heap = (txh.inner.DeliverTx c tx req s1.heap).2 := by
  have h := DeliverTx_of_runAnte_ok IsZero txh ctx c tx req s s1 hrun
  rw [hin] at h
  exact ⟨_, h, rfl, rfl, rfl, rfl, rfl, rfl⟩

/-- The success path of SimulateTx after `runAnte`: the result of the inner response. -/
theorem SimulateTx_success (IsZero : Context → Bool) (txh : legacyAnteTxHandler)
    (ctx c : Context) (tx : Tx) (req : RequestSimulateTx) (s s1 : State)
    (hrun : txh.runAnte IsZero ctx tx req.TxBytes true s = some ((c, none), s1))
    (hin : (txh.inner.SimulateTx c tx req s1.heap).1.2 = none) :
    ∃ out, txh.SimulateTx IsZero ctx tx req s = some out ∧ out.1.2 = none ∧
      out.1.1.Result = (txh.inner.SimulateTx c tx req s1.heap).1.1.Result ∧
      out.2.trace = s1.trace ++ [Call.innerSimulateTx c tx req] ∧
      out.2.heap = (txh.inner.SimulateTx c tx req s1.heap).2 := by
  have h := SimulateTx_of_runAnte_ok IsZero txh ctx c tx req s s1 hrun
  rw [hin] at h
  exact ⟨_, h, rfl, rfl, rfl, rfl⟩

/-! ## Lemmas on event logs and gas meters -/

theorem eventManagers_EmitEvents (h : Heap) (em : EventManagerId) (evs : List Event) (j : Nat) :
    (h.EmitEvents em evs).eventManagers[j]? =
      if j = em then (h.eventManagers[em]?).map (fun log => log ++ evs)
      else h.eventManagers[j]? := by
  unfold Heap.EmitEvents
  cases hs : h.eventManagers[em]? with
  | none =>
    by_cases hj : j = em
    · subst hj; simp [hs]
    · simp [hj]
  | some o =>
    have hlt : em < h.eventManagers.length := by
      rcases List.getElem?_eq_some.mp hs with ⟨hlt, _⟩
      exact hlt
    by_cases hj : j = em
    · subst hj; simp [List.getElem?_set, hlt]
    · have hne : em ≠ j := fun e => hj e.symm
      simp [List.getElem?_set, hj, hne]

theorem length_EmitEvents (h : Heap) (em : EventManagerId) (evs : List Event) :
    (h.EmitEvents em evs).eventManagers.length = h.eventManagers.length := by
  unfold Heap.EmitEvents
  cases h.eventManagers[em]? <;> simp

theorem rest_EmitEvents (h : Heap) (em : EventManagerId) (evs : List Event) :
    (h.EmitEvents em evs).stores = h.stores ∧ (h.EmitEvents em evs).gasMeters = h.gasMeters := by
  unfold Heap.EmitEvents
  cases h.eventManagers[em]? <;> simp

theorem EmitEvents_congr (h h2 : Heap) (em : EventManagerId) (evs : List Event)
    (heq : h.eventManagers = h2.eventManagers) :
    (h.EmitEvents em evs).eventManagers = (h2.EmitEvents em evs).eventManagers := by
  unfold Heap.EmitEvents
  rw [heq]
  cases h2.eventManagers[em]? <;> simp [heq]

/-- An admission function that emits through its context leaves the older event logs. -/
theorem eventManagers_anteResult (ante : AnteHandler) (ctx : Context) (r : StoreId) (tx : Tx)
    (isSimulate : Bool) (s : State) (hemit : EmitsThroughContext ante) (e0 : Nat)
    (he0 : e0 < s.heap.eventManagers.length) :
    (anteResult ante ctx r tx isSimulate s).2.eventManagers[e0]? =
      s.heap.eventManagers[e0]? := by
  obtain ⟨evs, extra, h⟩ :=
    hemit (anteCtx ctx s) tx isSimulate (anteHeap r s) (anteEventManager s) rfl
  have hlen : (anteHeap r s).eventManagers.length = s.heap.eventManagers.length + 1 := by
    simp [anteHeap, NewEventManager, Heap.CacheMultiStore]
  have hne : e0 ≠ anteEventManager s := by
    unfold anteEventManager
    omega
  rw [anteResult, h, List.getElem?_append_left (by rw [length_EmitEvents, hlen]; omega),
    eventManagers_EmitEvents, if_neg hne]
  simp only [anteHeap, NewEventManager, Heap.CacheMultiStore]
  exact List.getElem?_append_left he0

/-- The event logs after `runAnte` are those the admission function left. -/
theorem runAnte_eventManagers (IsZero : Context → Bool) (txh : legacyAnteTxHandler)
    (ante : AnteHandler) (ctx : Context) (r : StoreId) (tx : Tx) (txBytes : List Nat)
    (isSimulate : Bool) (s : State)
    (hvalid : validateBasicTxMsgs tx.GetMsgs = none) (hante : txh.anteHandler = some ante)
    (hms : ctx.MultiStore = some r) :
    ∃ out, txh.runAnte IsZero ctx tx txBytes isSimulate s = some out ∧
      out.1.2 = (anteResult ante ctx r tx isSimulate s).1.2 ∧
      out.2.heap.eventManagers = (anteResult ante ctx r tx isSimulate s).2.eventManagers ∧
      out.2.heap.gasMeters = (anteResult ante ctx r tx isSimulate s).2.gasMeters ∧
      anteCalls out.2.trace = anteCalls s.trace ++ [(anteCtx ctx s, tx, isSimulate)] ∧
      Call.cacheTxContext r (branchId s) ∈ out.2.trace := by
  cases herr : (anteResult ante ctx r tx isSimulate s).1.2 with
  | some e =>
    refine ⟨_, runAnte_ante_err IsZero txh ante ctx r tx txBytes isSimulate s e hvalid hante
      hms herr, rfl, rfl, rfl, ?_, ?_⟩
    · simp [anteCalls_append, anteCalls]
    · simp
  | none =>
    refine ⟨_, runAnte_ante_ok IsZero txh ante ctx r tx txBytes isSimulate s hvalid hante
      hms herr, rfl, (rest_Write _ _).2, (rest_Write _ _).1, ?_, ?_⟩
    · simp [anteCalls_append, anteCalls]
    · simp

theorem EmitsThroughContext_anteFeeEvent : EmitsThroughContext anteFeeEvent := by
  intro ctx tx isSimulate h em hem
  refine ⟨[evFee], [], ?_⟩
  have hrest : (anteDeductFee ctx tx isSimulate h).2.eventManagers = h.eventManagers := by
    simp only [anteDeductFee]
    cases ctx.MultiStore with
    | none => rfl
    | some id =>
      simp only
      cases h.Get id "balance" with
      | none => rfl
      | some bal =>
        simp only
        by_cases hb : 10 ≤ bal
        · simp only [hb, if_true, Heap.Set, Heap.put]
          exact (rest_modifyStore _ _ _).2
        · simp only [hb, if_false]
  simp only [anteFeeEvent, hem, List.append_nil]
  exact EmitEvents_congr _ _ _ _ hrest

theorem stores_anteFeeEvent (ctx : Context) (tx : Tx) (isSimulate : Bool) (h : Heap) :
    (anteFeeEvent ctx tx isSimulate h).2.stores = (anteDeductFee ctx tx isSimulate h).2.stores := by
  simp only [anteFeeEvent]
  cases ctx.eventManager with
  | none => rfl
  | some em => exact (rest_EmitEvents _ _ _).1

theorem WritesThroughContext_anteZeroCtx : WritesThroughContext anteZeroCtx := by
  intro ctx tx isSimulate h id hid
  obtain ⟨ws, extra, hw⟩ := WritesThroughContext_anteDeductFee ctx tx isSimulate h id hid
  refine ⟨ws, extra, ?_⟩
  rw [← hw, ← stores_anteFeeEvent]
  rfl

theorem EmitsThroughContext_anteZeroCtx : EmitsThroughContext anteZeroCtx := by
  intro ctx tx isSimulate h em hem
  obtain ⟨evs, extra, he⟩ := EmitsThroughContext_anteFeeEvent ctx tx isSimulate h em hem
  exact ⟨evs, extra, he⟩

/-- When the admission function returns an error, each operation returns it and leaves
the gas meters as the admission function left them. -/
theorem gasMeters_on_admission_error (IsZero : Context → Bool) (txh : legacyAnteTxHandler)
    (ante : AnteHandler) (ctx : Context) (r : StoreId) (tx : Tx) (txBytes : List Nat)
    (isSimulate : Bool) (s : State)
    (hvalid : validateBasicTxMsgs tx.GetMsgs = none) (hante : txh.anteHandler = some ante)
    (hms : ctx.MultiStore = some r)
    (hne : (anteResult ante ctx r tx isSimulate s).1.2 ≠ none) :
    ∃ e s1, (anteResult ante ctx r tx isSimulate s).1.2 = some e ∧
      txh.runAnte IsZero ctx tx txBytes isSimulate s = some ((Context.zero, some e), s1) ∧
      s1.heap.gasMeters = (anteResult ante ctx r tx isSimulate s).2.gasMeters := by
  obtain ⟨e, he⟩ := Option.ne_none_iff_exists'.mp hne
  exact ⟨e, _, he,
    runAnte_ante_err IsZero txh ante ctx r tx txBytes isSimulate s e hvalid hante hms he, rfl⟩

/-- A write through one branch does not change what reads through another branch of
the same older store. -/
theorem Get_sibling_branch (h : Heap) (b1 b2 r : Nat) (es : List (Key × Option Value))
    (k : Key) (v : Option Value) (k2 : Key)
    (hb2 : h.stores[b2]? = some (Store.mk (some r) es)) (hne : b2 ≠ b1) (hr1 : r < b1) :
    (h.put b1 k v).Get b2 k2 = h.Get b2 k2 := by
  have h1 : (h.put b1 k v).stores[b2]? = some (Store.mk (some r) es) := by
    rw [Heap.put, stores_modifyStore, if_neg hne, hb2]
  simp only [Heap.Get, getAux, h1, hb2]
  cases lookupEntry k2 es with
  | some w => rfl
  | none =>
    simp only
    by_cases hp : r < b2
    · rw [if_pos hp, if_pos hp]
      apply getAux_congr
      intro j hj
      rw [Heap.put, stores_modifyStore, if_neg (by omega)]
    · rw [if_neg hp, if_neg hp]

/-! ## Lemmas on the account lookup -/

theorem GetAccount_of_not_registered (k : AccountKeeper) (a : AccAddress)
    (h : ∀ acc ∈ k.accounts, acc.address ≠ a) : k.GetAccount a = none := by
  unfold AccountKeeper.GetAccount
  rw [List.find?_eq_none]
  intro acc hacc
  simpa using h acc hacc

theorem GetAccount_SetAccount (k : AccountKeeper) (acc : Account) :
    (k.SetAccount acc).GetAccount acc.address = some acc := by
  simp [AccountKeeper.GetAccount, AccountKeeper.SetAccount]

theorem String_ne_nil (a : AccAddress) (ha : a ≠ []) : AccAddress.String a ≠ [] := by
  simp [AccAddress.String, ha, bech32Hrp]

theorem AccAddressFromBech32_String (a : AccAddress) (ha : a ≠ []) :
    AccAddressFromBech32 (AccAddress.String a) = some a := by
  have h1 : (bech32Hrp ++ a).take bech32Hrp.length = bech32Hrp := List.take_left _ _
  have h2 : (bech32Hrp ++ a).drop bech32Hrp.length = a := List.drop_left _ _
  simp only [AccAddress.String, if_neg ha, AccAddressFromBech32, h1, h2]
  simp [ha]

/-! ## The claims -/

/-- C1 (atomicity on admission failure): for a transaction that passes basic
validation and a configured admission function that returns an error, whatever it
wrote through the branched context, each of CheckTx, DeliverTx and SimulateTx returns
that error and leaves the root store of the incoming context unchanged; the calls made
are the creation of the branch and the admission function, and no commit of the
branch. -/
theorem C1_admission_error_leaves_root_store (IsZero : Context → Bool)
    (txh : legacyAnteTxHandler) (ante : AnteHandler) (ctx : Context) (r : StoreId) (tx : Tx)
    (reqC : RequestCheckTx) (reqD : RequestDeliverTx) (reqS : RequestSimulateTx) (s : State)
    (hante : txh.anteHandler = some ante) (hconf : WritesThroughContext ante)
    (hms : ctx.MultiStore = some r) (hr : r < s.heap.stores.length)
    (hvalid : validateBasicTxMsgs tx.GetMsgs = none) :
    ((anteResult ante ctx r tx false s).1.2 ≠ none →
      ∃ out, txh.CheckTx IsZero ctx tx reqC s = some out ∧
        out.1.2 = (anteResult ante ctx r tx false s).1.2 ∧
        StoreUnchanged r s.heap out.2.heap ∧
        out.2.trace = s.trace ++ [Call.cacheTxContext r (branchId s),
          Call.anteHandler (anteCtx ctx s) tx false]) ∧
    ((anteResult ante ctx r tx false s).1.2 ≠ none →
      ∃ out, txh.DeliverTx IsZero ctx tx reqD s = some out ∧
        out.1.2 = (anteResult ante ctx r tx false s).1.2 ∧
        StoreUnchanged r s.heap out.2.heap ∧
        out.2.trace = s.trace ++ [Call.cacheTxContext r (branchId s),
          Call.anteHandler (anteCtx ctx s) tx false]) ∧
    ((anteResult ante ctx r tx true s).1.2 ≠ none →
      ∃ out, txh.SimulateTx IsZero ctx tx reqS s = some out ∧
        out.1.2 = (anteResult ante ctx r tx true s).1.2 ∧
        StoreUnchanged r s.heap out.2.heap ∧
        out.2.trace = s.trace ++ [Call.cacheTxContext r (branchId s),
          Call.anteHandler (anteCtx ctx s) tx true]) := by
  refine ⟨?_, ?_, ?_⟩
  · intro hne
    obtain ⟨e, he⟩ := Option.ne_none_iff_exists'.mp hne
    refine ⟨_, CheckTx_of_runAnte_err IsZero txh ctx _ tx reqC s _ e
      (runAnte_ante_err IsZero txh ante ctx r tx _ false s e hvalid hante hms he), he.symm,
      StoreUnchanged_anteResult ante ctx r tx false s hconf hr, rfl⟩
  · intro hne
    obtain ⟨e, he⟩ := Option.ne_none_iff_exists'.mp hne
    refine ⟨_, DeliverTx_of_runAnte_err IsZero txh ctx _ tx reqD s _ e
      (runAnte_ante_err IsZero txh ante ctx r tx _ false s e hvalid hante hms he), he.symm,
      StoreUnchanged_anteResult ante ctx r tx false s hconf hr, rfl⟩
  · intro hne
    obtain ⟨e, he⟩ := Option.ne_none_iff_exists'.mp hne
    refine ⟨_, SimulateTx_of_runAnte_err IsZero txh ctx _ tx reqS s _ e
      (runAnte_ante_err IsZero txh ante ctx r tx _ true s e hvalid hante hms he), he.symm,
      StoreUnchanged_anteResult ante ctx r tx true s hconf hr, rfl⟩

theorem C1_admission_error_leaves_root_store_witness :
    validateBasicTxMsgs tx0.GetMsgs = none ∧
    (anteResult anteAbort ctx0 0 tx0 false state0).1.2 ≠ none ∧
    (anteResult anteAbort ctx0 0 tx0 true state0).1.2 ≠ none ∧
    (anteResult anteAbort ctx0 0 tx0 false state0).2.Get (branchId state0) "balance" = some 0 ∧
    (∃ out, (newLegacyAnteMiddleware (some anteAbort) innerOk).CheckTx isZeroMs ctx0 tx0
        { Tx := [1] } state0 = some out ∧
      out.1.2 = some errUnauthorized ∧ out.2.heap.Get 0 "balance" = some 100) ∧
    (∃ out, (newLegacyAnteMiddleware (some anteAbort) innerOk).DeliverTx isZeroMs ctx0 tx0
        { Tx := [1] } state0 = some out ∧
      out.1.2 = some errUnauthorized ∧ out.2.heap.Get 0 "balance" = some 100) ∧
    (∃ out, (newLegacyAnteMiddleware (some anteAbort) innerOk).SimulateTx isZeroMs ctx0 tx0
        { TxBytes := [1] } state0 = some out ∧
      out.1.2 = some errUnauthorized ∧ out.2.heap.Get 0 "balance" = some 100) := by
  have hv : validateBasicTxMsgs tx0.GetMsgs = none := by decide
  have hf : (anteResult anteAbort ctx0 0 tx0 false state0).1.2 ≠ none := by decide
  have ht : (anteResult anteAbort ctx0 0 tx0 true state0).1.2 ≠ none := by decide
  have h := C1_admission_error_leaves_root_store isZeroMs
    (newLegacyAnteMiddleware (some anteAbort) innerOk) anteAbort ctx0 0 tx0
    { Tx := [1] } { Tx := [1] } { TxBytes := [1] } state0 rfl WritesThroughContext_anteAbort
    rfl (by decide) hv
  refine ⟨hv, hf, ht, by decide, ?_, ?_, ?_⟩
  · obtain ⟨out, h1, h2, h3, _⟩ := h.1 hf
    exact ⟨out, h1, h2, by rw [h3.2 "balance"]; decide⟩
  · obtain ⟨out, h1, h2, h3, _⟩ := h.2.1 hf
    exact ⟨out, h1, h2, by rw [h3.2 "balance"]; decide⟩
  · obtain ⟨out, h1, h2, h3, _⟩ := h.2.2 ht
    exact ⟨out, h1, h2, by rw [h3.2 "balance"]; decide⟩

/-- C2 (commit on admission success): for a transaction that passes basic validation
and a configured admission function that returns no error, `runAnte` returns no error
and makes exactly three calls, in this order: the creation of the branch, the admission
function, and one commit of the branch.  After it the root store reads, for every key,
what the branch read at the end of admission: the old root store with all the writes
of the admission function on top.  Each operation then invokes the inner handler once,
after the commit, on the heap `runAnte` left. -/
theorem C2_admission_success_commits_once (IsZero : Context → Bool)
    (txh : legacyAnteTxHandler) (ante : AnteHandler) (ctx : Context) (r : StoreId) (tx : Tx)
    (isSimulate : Bool) (s : State)
    (hante : txh.anteHandler = some ante) (hconf : WritesThroughContext ante)
    (hms : ctx.MultiStore = some r) (hr : r < s.heap.stores.length)
    (hvalid : validateBasicTxMsgs tx.GetMsgs = none)
    (hok : (anteResult ante ctx r tx isSimulate s).1.2 = none) :
    ∃ out : (Context × Option Error) × State,
      (∀ txBytes, txh.runAnte IsZero ctx tx txBytes isSimulate s = some out) ∧
      out.1.2 = none ∧
      out.2.trace = s.trace ++ [Call.cacheTxContext r (branchId s),
        Call.anteHandler (anteCtx ctx s) tx isSimulate, Call.write (branchId s)] ∧
      (∀ k, out.2.heap.Get r k =
        (anteResult ante ctx r tx isSimulate s).2.Get (branchId s) k) ∧
      (∃ (ws : List (Key × Option Value)) (extra : List Store),
        (anteResult ante ctx r tx isSimulate s).2.stores =
          ((anteHeap r s).applyWrites (branchId s) ws).stores ++ extra ∧
        ∀ k, out.2.heap.Get r k = readAfter ws (s.heap.Get r k) k) ∧
      (isSimulate = false → ∀ req, ∃ res,
        txh.CheckTx IsZero ctx tx req s = some (res,
          { heap := (txh.inner.CheckTx out.1.1 tx req out.2.heap).2,
            trace := out.2.trace ++ [Call.innerCheckTx out.1.1 tx req] })) ∧
      (isSimulate = false → ∀ req, ∃ res,
        txh.DeliverTx IsZero ctx tx req s = some (res,
          { heap := (txh.inner.DeliverTx out.1.1 tx req out.2.heap).2,
            trace := out.2.trace ++ [Call.innerDeliverTx out.1.1 tx req] })) ∧
      (isSimulate = true → ∀ req, ∃ res,
        txh.SimulateTx IsZero ctx tx req s = some (res,
          { heap := (txh.inner.SimulateTx out.1.1 tx req out.2.heap).2,
            trace := out.2.trace ++ [Call.innerSimulateTx out.1.1 tx req] })) := by
  have hrun := fun txBytes =>
    runAnte_ante_ok IsZero txh ante ctx r tx txBytes isSimulate s hvalid hante hms hok
  obtain ⟨ws, extra, hws, hget⟩ := Get_committedHeap ante ctx r tx isSimulate s hconf hr
  refine ⟨_, hrun, rfl, rfl, fun k => (hget k).1, ⟨ws, extra, hws, fun k => (hget k).2⟩,
    ?_, ?_, ?_⟩
  · intro hsim req
    subst hsim
    exact ⟨_, CheckTx_of_runAnte_ok IsZero txh ctx _ tx req s _ (hrun req.Tx)⟩
  · intro hsim req
    subst hsim
    exact ⟨_, DeliverTx_of_runAnte_ok IsZero txh ctx _ tx req s _ (hrun req.Tx)⟩
  · intro hsim req
    subst hsim
    exact ⟨_, SimulateTx_of_runAnte_ok IsZero txh ctx _ tx req s _ (hrun req.TxBytes)⟩

theorem C2_admission_success_commits_once_witness :
    validateBasicTxMsgs tx0.GetMsgs = none ∧
    (anteResult anteDeductFee ctx0 0 tx0 false state0).1.2 = none ∧
    state0.heap.Get 0 "balance" = some 100 ∧
    ∃ out : (Context × Option Error) × State,
      (newLegacyAnteMiddleware (some anteDeductFee) innerOk).runAnte isZeroMs ctx0 tx0 [1] false
        state0 = some out ∧
      out.2.trace = [Call.cacheTxContext 0 1, Call.anteHandler (anteCtx ctx0 state0) tx0 false,
        Call.write 1] ∧
      out.2.heap.Get 0 "balance" = some 90 := by
  have hv : validateBasicTxMsgs tx0.GetMsgs = none := by decide
  have hok : (anteResult anteDeductFee ctx0 0 tx0 false state0).1.2 = none := by decide
  obtain ⟨out, h1, _, h3, h4, _⟩ := C2_admission_success_commits_once isZeroMs
    (newLegacyAnteMiddleware (some anteDeductFee) innerOk) anteDeductFee ctx0 0 tx0 false
    state0 rfl WritesThroughContext_anteDeductFee rfl (by decide) hv hok
  refine ⟨hv, hok, by decide, out, h1 [1], ?_, ?_⟩
  · rw [h3]; rfl
  · rw [h4 "balance"]; decide

/-- C3 (no rollback on downstream failure): for a transaction that passes basic
validation, if the admission function returns no error and the inner handler then
returns an error, each of CheckTx, DeliverTx and SimulateTx returns exactly the error
of the inner handler, and the heap is the one the inner handler left: nothing is
undone, so when the inner handler left the root store as it was, the root store reads
what the branch read at the end of admission.  For the admission function that deducts
10 from a balance of at least 10, the balance read from the root store afterwards is
10 lower than before. -/
theorem C3_inner_error_keeps_admission_writes (IsZero : Context → Bool)
    (txh : legacyAnteTxHandler) (ante : AnteHandler) (ctx : Context) (r : StoreId) (tx : Tx)
    (s : State)
    (hante : txh.anteHandler = some ante) (hconf : WritesThroughContext ante)
    (hms : ctx.MultiStore = some r) (hr : r < s.heap.stores.length)
    (hvalid : validateBasicTxMsgs tx.GetMsgs = none) :
    (∀ req e, (anteResult ante ctx r tx false s).1.2 = none →
      (txh.inner.CheckTx (postAnteCtx IsZero ante ctx r tx false s) tx req
        (committedHeap ante ctx r tx false s)).1.2 = some e →
      ∃ out, txh.CheckTx IsZero ctx tx req s = some out ∧ out.1.2 = some e ∧
        out.2.heap = (txh.inner.CheckTx (postAnteCtx IsZero ante ctx r tx false s) tx req
          (committedHeap ante ctx r tx false s)).2 ∧
        (StoreUnchanged r (committedHeap ante ctx r tx false s) out.2.heap →
          (∀ k, out.2.heap.Get r k =
            (anteResult ante ctx r tx false s).2.Get (branchId s) k) ∧
          (ante = anteDeductFee → ∀ bal, s.heap.Get r "balance" = some bal → 10 ≤ bal →
            out.2.heap.Get r "balance" = some (bal - 10)))) ∧
    (∀ req e, (anteResult ante ctx r tx false s).1.2 = none →
      (txh.inner.DeliverTx (postAnteCtx IsZero ante ctx r tx false s) tx req
        (committedHeap ante ctx r tx false s)).1.2 = some e →
      ∃ out, txh.DeliverTx IsZero ctx tx req s = some out ∧ out.1.2 = some e ∧
        out.2.heap = (txh.inner.DeliverTx (postAnteCtx IsZero ante ctx r tx false s) tx req
          (committedHeap ante ctx r tx false s)).2 ∧
        (StoreUnchanged r (committedHeap ante ctx r tx false s) out.2.heap →
          (∀ k, out.2.heap.Get r k =
            (anteResult ante ctx r tx false s).2.Get (branchId s) k) ∧
          (ante = anteDeductFee → ∀ bal, s.heap.Get r "balance" = some bal → 10 ≤ bal →
            out.2.heap.Get r "balance" = some (bal - 10)))) ∧
    (∀ req e, (anteResult ante ctx r tx true s).1.2 = none →
      (txh.inner.SimulateTx (postAnteCtx IsZero ante ctx r tx true s) tx req
        (committedHeap ante ctx r tx true s)).1.2 = some e →
      ∃ out, txh.SimulateTx IsZero ctx tx req s = some out ∧ out.1.2 = some e ∧
        out.2.heap = (txh.inner.SimulateTx (postAnteCtx IsZero ante ctx r tx true s) tx req
          (committedHeap ante ctx r tx true s)).2 ∧
        (StoreUnchanged r (committedHeap ante ctx r tx true s) out.2.heap →
          (∀ k, out.2.heap.Get r k =
            (anteResult ante ctx r tx true s).2.Get (branchId s) k) ∧
          (ante = anteDeductFee → ∀ bal, s.heap.Get r "balance" = some bal → 10 ≤ bal →
            out.2.heap.Get r "balance" = some (bal - 10)))) := by
  have key : ∀ (isSimulate : Bool) (h2 : Heap),
      StoreUnchanged r (committedHeap ante ctx r tx isSimulate s) h2 →
      (∀ k, h2.Get r k = (anteResult ante ctx r tx isSimulate s).2.Get (branchId s) k) ∧
      (ante = anteDeductFee → ∀ bal, s.heap.Get r "balance" = some bal → 10 ≤ bal →
        h2.Get r "balance" = some (bal - 10)) := by
    intro isSimulate h2 hun
    obtain ⟨ws, extra, _, hget⟩ := Get_committedHeap ante ctx r tx isSimulate s hconf hr
    have hall : ∀ k, h2.Get r k =
        (anteResult ante ctx r tx isSimulate s).2.Get (branchId s) k := by
      intro k
      rw [hun.2 k]
      exact (hget k).1
    refine ⟨hall, ?_⟩
    intro hd bal hbal hten
    rw [hall "balance", hd]
    exact (anteDeductFee_result ctx r tx isSimulate s bal hr hbal hten).2
  refine ⟨?_, ?_, ?_⟩
  · intro req e hok hin
    have hrun := runAnte_ante_ok IsZero txh ante ctx r tx req.Tx false s hvalid hante hms hok
    have hop := CheckTx_of_runAnte_ok IsZero txh ctx _ tx req s _ hrun
    simp only [postAnteCtx, committedHeap] at hin
    rw [hin] at hop
    exact ⟨_, hop, rfl, rfl, key false _⟩
  · intro req e hok hin
    have hrun := runAnte_ante_ok IsZero txh ante ctx r tx req.Tx false s hvalid hante hms hok
    have hop := DeliverTx_of_runAnte_ok IsZero txh ctx _ tx req s _ hrun
    simp only [postAnteCtx, committedHeap] at hin
    rw [hin] at hop
    exact ⟨_, hop, rfl, rfl, key false _⟩
  · intro req e hok hin
    have hrun := runAnte_ante_ok IsZero txh ante ctx r tx req.TxBytes true s hvalid hante hms hok
    have hop := SimulateTx_of_runAnte_ok IsZero txh ctx _ tx req s _ hrun
    simp only [postAnteCtx, committedHeap] at hin
    rw [hin] at hop
    exact ⟨_, hop, rfl, rfl, key true _⟩

theorem C3_inner_error_keeps_admission_writes_witness :
    validateBasicTxMsgs tx0.GetMsgs = none ∧
    (anteResult anteDeductFee ctx0 0 tx0 false state0).1.2 = none ∧
    state0.heap.Get 0 "balance" = some 100 ∧
    ∃ out, (newLegacyAnteMiddleware (some anteDeductFee) innerFail).CheckTx isZeroMs ctx0 tx0
        { Tx := [1] } state0 = some out ∧
      out.1.2 = some errInner ∧ out.2.heap.Get 0 "balance" = some 90 := by
  have hv : validateBasicTxMsgs tx0.GetMsgs = none := by decide
  have hok : (anteResult anteDeductFee ctx0 0 tx0 false state0).1.2 = none := by decide
  have hbal : state0.heap.Get 0 "balance" = some 100 := by decide
  obtain ⟨out, h1, h2, h3, h4⟩ := (C3_inner_error_keeps_admission_writes isZeroMs
    (newLegacyAnteMiddleware (some anteDeductFee) innerFail) anteDeductFee ctx0 0 tx0
    state0 rfl WritesThroughContext_anteDeductFee rfl (by decide) hv).1
    { Tx := [1] } errInner hok rfl
  have hun : StoreUnchanged 0 (committedHeap anteDeductFee ctx0 0 tx0 false state0)
      out.2.heap := by
    rw [h3]
    exact ⟨rfl, fun _ => rfl⟩
  exact ⟨hv, hok, hbal, out, h1, h2, (h4 hun).2 rfl 100 hbal (by decide)⟩

/-- C4: whenever CheckTx, DeliverTx or SimulateTx returns a non-nil error, the response
returned with it is the empty response of that mode, wherever the error comes from and
whatever response the inner handler returned with its error.  Each operation returns,
except that branching a nil store handle for a configured admission function panics. -/
theorem C4_error_comes_with_empty_response (IsZero : Context → Bool)
    (txh : legacyAnteTxHandler) (ctx : Context) (tx : Tx) (s : State) :
    (∀ req out, txh.CheckTx IsZero ctx tx req s = some out → out.1.2 ≠ none →
      out.1.1 = {}) ∧
    (∀ req out, txh.DeliverTx IsZero ctx tx req s = some out → out.1.2 ≠ none →
      out.1.1 = {}) ∧
    (∀ req out, txh.SimulateTx IsZero ctx tx req s = some out → out.1.2 ≠ none →
      out.1.1 = {}) ∧
    (∀ req, txh.CheckTx IsZero ctx tx req s = none ↔
      (validateBasicTxMsgs tx.GetMsgs = none ∧ txh.anteHandler.isSome ∧
        ctx.MultiStore = none)) ∧
    (∀ req, txh.DeliverTx IsZero ctx tx req s = none ↔
      (validateBasicTxMsgs tx.GetMsgs = none ∧ txh.anteHandler.isSome ∧
        ctx.MultiStore = none)) ∧
    (∀ req, txh.SimulateTx IsZero ctx tx req s = none ↔
      (validateBasicTxMsgs tx.GetMsgs = none ∧ txh.anteHandler.isSome ∧
        ctx.MultiStore = none)) := by
  have hnone : ∀ (txBytes : List Nat) (isSimulate : Bool),
      txh.runAnte IsZero ctx tx txBytes isSimulate s = none ↔
        (validateBasicTxMsgs tx.GetMsgs = none ∧ txh.anteHandler.isSome ∧
          ctx.MultiStore = none) := by
    intro txBytes isSimulate
    cases hv : validateBasicTxMsgs tx.GetMsgs with
    | some e => simp [legacyAnteTxHandler.runAnte, hv]
    | none =>
      cases ha : txh.anteHandler with
      | none => simp [legacyAnteTxHandler.runAnte, hv, ha]
      | some ante =>
        cases hm : ctx.MultiStore with
        | none => simp [legacyAnteTxHandler.runAnte, hv, ha, cacheTxContext, hm]
        | some r =>
          rw [runAnte_ante IsZero txh ante ctx r tx txBytes isSimulate s hv ha hm]
          cases (anteResult ante ctx r tx isSimulate s).1.2 <;> simp
  refine ⟨?_, ?_, ?_, ?_, ?_, ?_⟩
  · intro req out h he
    cases hrun : txh.runAnte IsZero ctx tx req.Tx false s with
    | none => simp [legacyAnteTxHandler.CheckTx, hrun] at h
    | some a =>
      obtain ⟨⟨c, err⟩, s1⟩ := a
      cases err with
      | some e =>
        rw [CheckTx_of_runAnte_err IsZero txh ctx c tx req s s1 e hrun] at h
        cases h; rfl
      | none =>
        rw [CheckTx_of_runAnte_ok IsZero txh ctx c tx req s s1 hrun] at h
        cases hin : (txh.inner.CheckTx c tx req s1.heap).1.2 with
        | some e => rw [hin] at h; cases h; rfl
        | none => rw [hin] at h; cases h; exact absurd rfl he
  · intro req out h he
    cases hrun : txh.runAnte IsZero ctx tx req.Tx false s with
    | none => simp [legacyAnteTxHandler.DeliverTx, hrun] at h
    | some a =>
      obtain ⟨⟨c, err⟩, s1⟩ := a
      cases err with
      | some e =>
        rw [DeliverTx_of_runAnte_err IsZero txh ctx c tx req s s1 e hrun] at h
        cases h; rfl
      | none =>
        rw [DeliverTx_of_runAnte_ok IsZero txh ctx c tx req s s1 hrun] at h
        cases hin : (txh.inner.DeliverTx c tx req s1.heap).1.2 with
        | some e => rw [hin] at h; cases h; rfl
        | none => rw [hin] at h; cases h; exact absurd rfl he
  · intro req out h he
    cases hrun : txh.runAnte IsZero ctx tx req.TxBytes true s with
    | none => simp [legacyAnteTxHandler.SimulateTx, hrun] at h
    | some a =>
      obtain ⟨⟨c, err⟩, s1⟩ := a
      cases err with
      | some e =>
        rw [SimulateTx_of_runAnte_err IsZero txh ctx c tx req s s1 e hrun] at h
        cases h; rfl
      | none =>
        rw [SimulateTx_of_runAnte_ok IsZero txh ctx c tx req s s1 hrun] at h
        cases hin : (txh.inner.SimulateTx c tx req s1.heap).1.2 with
        | some e => rw [hin] at h; cases h; rfl
        | none => rw [hin] at h; cases h; exact absurd rfl he
  · intro req
    rw [← hnone req.Tx false]
    cases hrun : txh.runAnte IsZero ctx tx req.Tx false s with
    | none => simp [legacyAnteTxHandler.CheckTx, hrun]
    | some a =>
      simp only [legacyAnteTxHandler.CheckTx, hrun]
      cases a.1.2 with
      | some e => simp
      | none => cases (txh.inner.CheckTx a.1.1 tx req a.2.heap).1.2 <;> simp
  · intro req
    rw [← hnone req.Tx false]
    cases hrun : txh.runAnte IsZero ctx tx req.Tx false s with
    | none => simp [legacyAnteTxHandler.DeliverTx, hrun]
    | some a =>
      simp only [legacyAnteTxHandler.DeliverTx, hrun]
      cases a.1.2 with
      | some e => simp
      | none => cases (txh.inner.DeliverTx a.1.1 tx req a.2.heap).1.2 <;> simp
  · intro req
    rw [← hnone req.TxBytes true]
    cases hrun : txh.runAnte IsZero ctx tx req.TxBytes true s with
    | none => simp [legacyAnteTxHandler.SimulateTx, hrun]
    | some a =>
      simp only [legacyAnteTxHandler.SimulateTx, hrun]
      cases a.1.2 with
      | some e => simp
      | none => cases (txh.inner.SimulateTx a.1.1 tx req a.2.heap).1.2 <;> simp

theorem C4_error_comes_with_empty_response_witness :
    (innerFail.CheckTx ctx0 tx0 { Tx := [1] } heap0).1.1 ≠ {} ∧
    ∃ out, (newLegacyAnteMiddleware none innerFail).CheckTx isZeroMs ctx0 tx0 { Tx := [1] }
        state0 = some out ∧
      out.1.2 = some errInner ∧ out.1.1 = {} := by
  have hrun : (newLegacyAnteMiddleware none innerFail).CheckTx isZeroMs ctx0 tx0 { Tx := [1] }
      state0 = some (({}, some errInner),
        { heap := heap0, trace := [Call.innerCheckTx ctx0 tx0 { Tx := [1] }] }) := by
    decide
  exact ⟨by decide, _, hrun, rfl,
    (C4_error_comes_with_empty_response isZeroMs (newLegacyAnteMiddleware none innerFail)
      ctx0 tx0 state0).1 { Tx := [1] } _ hrun (by decide)⟩

/-- C5: for a transaction whose message list is empty or holds a message whose
ValidateBasic fails, each of CheckTx, DeliverTx and SimulateTx returns the error of
`validateBasicTxMsgs` with an empty response and leaves the state as it was: the heap is
the same (no branch is created and nothing is written to the root store) and the trace
is the same (neither the admission function nor the inner handler is invoked). -/
theorem C5_invalid_msgs_return_before_any_effect (IsZero : Context → Bool)
    (txh : legacyAnteTxHandler) (ctx : Context) (tx : Tx) (s : State)
    (hbad : tx.GetMsgs = [] ∨ ∃ m ∈ tx.GetMsgs, m.ValidateBasic ≠ none) :
    ∃ e, validateBasicTxMsgs tx.GetMsgs = some e ∧
      (∀ txBytes isSimulate,
        txh.runAnte IsZero ctx tx txBytes isSimulate s = some ((Context.zero, some e), s)) ∧
      (∀ req, txh.CheckTx IsZero ctx tx req s = some (({}, some e), s)) ∧
      (∀ req, txh.DeliverTx IsZero ctx tx req s = some (({}, some e), s)) ∧
      (∀ req, txh.SimulateTx IsZero ctx tx req s = some (({}, some e), s)) := by
  have hsome : ∃ e, validateBasicTxMsgs tx.GetMsgs = some e := by
    apply Option.ne_none_iff_exists'.mp
    rcases hbad with hnil | ⟨m, hm, hne⟩
    · rw [hnil]; decide
    · have hnn : tx.GetMsgs ≠ [] := by
        intro h0; rw [h0] at hm; cases hm
      rw [validateBasicTxMsgs_of_ne_nil _ hnn]
      intro hnone
      exact hne ((loop_eq_none_iff _).mp hnone m hm)
  obtain ⟨e, he⟩ := hsome
  have hrun := fun txBytes isSimulate =>
    runAnte_invalid IsZero txh ctx tx txBytes isSimulate s e he
  exact ⟨e, he, hrun,
    fun req => CheckTx_of_runAnte_err IsZero txh ctx _ tx req s s e (hrun req.Tx false),
    fun req => DeliverTx_of_runAnte_err IsZero txh ctx _ tx req s s e (hrun req.Tx false),
    fun req => SimulateTx_of_runAnte_err IsZero txh ctx _ tx req s s e (hrun req.TxBytes true)⟩

theorem C5_invalid_msgs_return_before_any_effect_witness :
    (({ GetMsgs := [msgOk, msgBad] } : Tx).GetMsgs = [] ∨
      ∃ m ∈ ({ GetMsgs := [msgOk, msgBad] } : Tx).GetMsgs, m.ValidateBasic ≠ none) ∧
    validateBasicTxMsgs [msgOk, msgBad] = some errUnauthorized ∧
    ∃ e, validateBasicTxMsgs [msgOk, msgBad] = some e ∧
      (newLegacyAnteMiddleware (some anteDeductFee) innerOk).DeliverTx isZeroMs ctx0
        { GetMsgs := [msgOk, msgBad] } { Tx := [1] } state0 = some (({}, some e), state0) := by
  have hbad : ({ GetMsgs := [msgOk, msgBad] } : Tx).GetMsgs = [] ∨
      ∃ m ∈ ({ GetMsgs := [msgOk, msgBad] } : Tx).GetMsgs, m.ValidateBasic ≠ none :=
    Or.inr ⟨msgBad, by decide, by decide⟩
  obtain ⟨e, h1, _, _, h4, _⟩ := C5_invalid_msgs_return_before_any_effect isZeroMs
    (newLegacyAnteMiddleware (some anteDeductFee) innerOk) ctx0
    { GetMsgs := [msgOk, msgBad] } state0 hbad
  exact ⟨hbad, by decide, e, h1, h4 { Tx := [1] }⟩

/-- C6: `validateBasicTxMsgs` on an empty (or nil) message list returns a non-nil error,
the invalid-request error `ErrInvalidRequest` wrapped with the description
"must contain at least one message". -/
theorem C6_empty_msgs_invalid_request :
    validateBasicTxMsgs [] = Wrap (some ErrInvalidRequest) "must contain at least one message" ∧
    validateBasicTxMsgs [] =
      some (Error.wrapped ErrInvalidRequest "must contain at least one message") ∧
    validateBasicTxMsgs [] ≠ none := by
  refine ⟨rfl, rfl, ?_⟩
  intro h
  cases h

/-- C7: on a non-empty message list `validateBasicTxMsgs` returns nil exactly when
ValidateBasic of every message returns nil; otherwise the list splits at the first
failing message (every message before it is valid) and the result is exactly the
error of that message, whatever messages follow it. -/
theorem C7_first_failing_message_decides (msgs : List Msg) (hne : msgs ≠ []) :
    (validateBasicTxMsgs msgs = none ↔ ∀ m ∈ msgs, m.ValidateBasic = none) ∧
    ((¬ ∀ m ∈ msgs, m.ValidateBasic = none) →
      ∃ (pre : List Msg) (m : Msg) (post : List Msg) (e : Error),
        msgs = pre ++ m :: post ∧ (∀ x ∈ pre, x.ValidateBasic = none) ∧
        m.ValidateBasic = some e ∧ validateBasicTxMsgs msgs = some e ∧
        ∀ other : List Msg, validateBasicTxMsgs (pre ++ m :: other) = some e) ∧
    (∀ (pre : List Msg) (m : Msg) (post : List Msg) (e : Error),
      msgs = pre ++ m :: post → (∀ x ∈ pre, x.ValidateBasic = none) →
      m.ValidateBasic = some e → validateBasicTxMsgs msgs = some e) := by
  have hsplit : ∀ (pre : List Msg) (m : Msg) (post : List Msg) (e : Error),
      (∀ x ∈ pre, x.ValidateBasic = none) → m.ValidateBasic = some e →
      validateBasicTxMsgs (pre ++ m :: post) = some e := by
    intro pre m post e hpre hm
    rw [validateBasicTxMsgs_of_ne_nil _ (by simp)]
    exact loop_first_failure pre m post e hpre hm
  refine ⟨?_, ?_, ?_⟩
  · rw [validateBasicTxMsgs_of_ne_nil _ hne]
    exact loop_eq_none_iff msgs
  · intro hnot
    obtain ⟨pre, m, post, e, heq, hpre, hm⟩ := exists_first_failure msgs hnot
    exact ⟨pre, m, post, e, heq, hpre, hm, by rw [heq]; exact hsplit pre m post e hpre hm,
      fun other => hsplit pre m other e hpre hm⟩
  · intro pre m post e heq hpre hm
    rw [heq]
    exact hsplit pre m post e hpre hm

theorem C7_first_failing_message_decides_witness :
    [msgOk, msgBad, msgBad2] ≠ [] ∧
    validateBasicTxMsgs [msgOk, msgBad, msgBad2] = some errUnauthorized := by
  have hne : [msgOk, msgBad, msgBad2] ≠ [] := by decide
  exact ⟨hne, (C7_first_failing_message_decides [msgOk, msgBad, msgBad2] hne).2.2
    [msgOk] msgBad [msgBad2] errUnauthorized rfl (by decide) rfl⟩

/-- C8: on every input on which `runAnte` returns no error, the state handle of the
context it returns is the state handle of the incoming context: with no admission
function configured, and with an admission function that returns no error, whether the
context it returns is zero or not and whatever state handle that context carries.  The
branch is a new object, so the returned handle is never the branch. -/
theorem C8_returned_context_has_incoming_store (IsZero : Context → Bool)
    (txh : legacyAnteTxHandler) (ctx : Context) (tx : Tx) (txBytes : List Nat)
    (isSimulate : Bool) (s : State) :
    (∀ out, txh.runAnte IsZero ctx tx txBytes isSimulate s = some out → out.1.2 = none →
      out.1.1.MultiStore = ctx.MultiStore) ∧
    (validateBasicTxMsgs tx.GetMsgs = none → txh.anteHandler = none →
      ∃ out, txh.runAnte IsZero ctx tx txBytes isSimulate s = some out ∧ out.1.2 = none ∧
        out.1.1.MultiStore = ctx.MultiStore) ∧
    (∀ ante r, validateBasicTxMsgs tx.GetMsgs = none → txh.anteHandler = some ante →
      ctx.MultiStore = some r → (anteResult ante ctx r tx isSimulate s).1.2 = none →
      ∃ out, txh.runAnte IsZero ctx tx txBytes isSimulate s = some out ∧ out.1.2 = none ∧
        out.1.1.MultiStore = some r ∧
        Call.cacheTxContext r (branchId s) ∈ out.2.trace ∧
        (r < s.heap.stores.length → out.1.1.MultiStore ≠ some (branchId s))) := by
  have hpost : ∀ (ante : AnteHandler) (r : StoreId), ctx.MultiStore = some r →
      (if !IsZero (anteResult ante ctx r tx isSimulate s).1.1 then
        (anteResult ante ctx r tx isSimulate s).1.1.WithMultiStore (some r)
        else ctx).MultiStore = some r := by
    intro ante r hm
    cases IsZero (anteResult ante ctx r tx isSimulate s).1.1 with
    | true => exact hm
    | false => rfl
  refine ⟨?_, ?_, ?_⟩
  · intro out h he
    cases hv : validateBasicTxMsgs tx.GetMsgs with
    | some e =>
      rw [runAnte_invalid IsZero txh ctx tx txBytes isSimulate s e hv] at h
      cases h
      cases he
    | none =>
      cases ha : txh.anteHandler with
      | none =>
        rw [runAnte_nil IsZero txh ctx tx txBytes isSimulate s hv ha] at h
        cases h
        rfl
      | some ante =>
        cases hm : ctx.MultiStore with
        | none =>
          simp [legacyAnteTxHandler.runAnte, hv, ha, cacheTxContext, hm] at h
        | some r =>
          cases hr : (anteResult ante ctx r tx isSimulate s).1.2 with
          | some e =>
            rw [runAnte_ante_err IsZero txh ante ctx r tx txBytes isSimulate s e hv ha hm hr]
              at h
            cases h
            cases he
          | none =>
            rw [runAnte_ante_ok IsZero txh ante ctx r tx txBytes isSimulate s hv ha hm hr]
              at h
            cases h
            exact hpost ante r hm
  · intro hv ha
    exact ⟨_, runAnte_nil IsZero txh ctx tx txBytes isSimulate s hv ha, rfl, rfl⟩
  · intro ante r hv ha hm hok
    refine ⟨_, runAnte_ante_ok IsZero txh ante ctx r tx txBytes isSimulate s hv ha hm hok,
      rfl, hpost ante r hm, by simp, ?_⟩
    intro hlt heq
    have h1 := hpost ante r hm
    simp only [h1, branchId, Option.some.injEq] at heq
    have hlt' : @LT.lt Nat _ r s.heap.stores.length := hlt
    have heq' : @Eq Nat r s.heap.stores.length := heq
    omega

theorem C8_returned_context_has_incoming_store_witness :
    validateBasicTxMsgs tx0.GetMsgs = none ∧
    (anteResult anteOtherStore ctx0 0 tx0 false state0).1.2 = none ∧
    (anteResult anteOtherStore ctx0 0 tx0 false state0).1.1.MultiStore = some 5 ∧
    ∃ out, (newLegacyAnteMiddleware (some anteOtherStore) innerOk).runAnte isZeroMs ctx0 tx0
        [1] false state0 = some out ∧
      out.1.2 = none ∧ out.1.1.MultiStore = some 0 := by
  have hv : validateBasicTxMsgs tx0.GetMsgs = none := by decide
  have hok : (anteResult anteOtherStore ctx0 0 tx0 false state0).1.2 = none := by decide
  obtain ⟨out, h1, h2, h3, _⟩ := (C8_returned_context_has_incoming_store isZeroMs
    (newLegacyAnteMiddleware (some anteOtherStore) innerOk) ctx0 tx0 [1] false state0).2.2
    anteOtherStore 0 hv rfl rfl hok
  exact ⟨hv, hok, by decide, out, h1, h2, h3⟩

/-- C9: when the admission function returns no error and a non-zero context, the context
`runAnte` returns, which is the one handed to the inner handler, is that context with
only the state handle replaced by the store of the incoming context: gas meter, event
manager, mode flags and ancillary fields are those of the returned context, and the
gas meters and event logs in the heap are as the admission function left them. -/
theorem C9_nonzero_context_kept_except_store (IsZero : Context → Bool)
    (txh : legacyAnteTxHandler) (ante : AnteHandler) (ctx : Context) (r : StoreId) (tx : Tx)
    (isSimulate : Bool) (s : State)
    (hante : txh.anteHandler = some ante) (hms : ctx.MultiStore = some r)
    (hvalid : validateBasicTxMsgs tx.GetMsgs = none)
    (hok : (anteResult ante ctx r tx isSimulate s).1.2 = none)
    (hnz : IsZero (anteResult ante ctx r tx isSimulate s).1.1 = false) :
    ∃ out : (Context × Option Error) × State,
      (∀ txBytes, txh.runAnte IsZero ctx tx txBytes isSimulate s = some out) ∧
      out.1.2 = none ∧
      out.1.1 = (anteResult ante ctx r tx isSimulate s).1.1.WithMultiStore ctx.MultiStore ∧
      out.1.1.MultiStore = ctx.MultiStore ∧
      out.1.1.gasMeter = (anteResult ante ctx r tx isSimulate s).1.1.gasMeter ∧
      out.1.1.eventManager = (anteResult ante ctx r tx isSimulate s).1.1.eventManager ∧
      out.1.1.checkTx = (anteResult ante ctx r tx isSimulate s).1.1.checkTx ∧
      out.1.1.simulate = (anteResult ante ctx r tx isSimulate s).1.1.simulate ∧
      out.1.1.chainID = (anteResult ante ctx r tx isSimulate s).1.1.chainID ∧
      out.1.1.blockHeight = (anteResult ante ctx r tx isSimulate s).1.1.blockHeight ∧
      out.2.heap.gasMeters = (anteResult ante ctx r tx isSimulate s).2.gasMeters ∧
      out.2.heap.eventManagers = (anteResult ante ctx r tx isSimulate s).2.eventManagers ∧
      (isSimulate = false → ∀ req, ∃ res,
        txh.CheckTx IsZero ctx tx req s = some (res,
          { heap := (txh.inner.CheckTx out.1.1 tx req out.2.heap).2,
            trace := out.2.trace ++ [Call.innerCheckTx out.1.1 tx req] })) ∧
      (isSimulate = false → ∀ req, ∃ res,
        txh.DeliverTx IsZero ctx tx req s = some (res,
          { heap := (txh.inner.DeliverTx out.1.1 tx req out.2.heap).2,
            trace := out.2.trace ++ [Call.innerDeliverTx out.1.1 tx req] })) ∧
      (isSimulate = true → ∀ req, ∃ res,
        txh.SimulateTx IsZero ctx tx req s = some (res,
          { heap := (txh.inner.SimulateTx out.1.1 tx req out.2.heap).2,
            trace := out.2.trace ++ [Call.innerSimulateTx out.1.1 tx req] })) := by
  have hrun := fun txBytes =>
    runAnte_ante_ok IsZero txh ante ctx r tx txBytes isSimulate s hvalid hante hms hok
  simp only [hnz, Bool.not_false, if_true] at hrun
  refine ⟨_, hrun, rfl, by rw [hms], by rw [hms]; rfl, rfl, rfl, rfl, rfl, rfl, rfl,
    (rest_Write _ _).1, (rest_Write _ _).2, ?_, ?_, ?_⟩
  · intro hsim req
    subst hsim
    exact ⟨_, CheckTx_of_runAnte_ok IsZero txh ctx _ tx req s _ (hrun req.Tx)⟩
  · intro hsim req
    subst hsim
    exact ⟨_, DeliverTx_of_runAnte_ok IsZero txh ctx _ tx req s _ (hrun req.Tx)⟩
  · intro hsim req
    subst hsim
    exact ⟨_, SimulateTx_of_runAnte_ok IsZero txh ctx _ tx req s _ (hrun req.TxBytes)⟩

theorem C9_nonzero_context_kept_except_store_witness :
    validateBasicTxMsgs tx0.GetMsgs = none ∧
    (anteResult anteOtherStore ctx0 0 tx0 false state0).1.2 = none ∧
    isZeroMs (anteResult anteOtherStore ctx0 0 tx0 false state0).1.1 = false ∧
    (anteResult anteOtherStore ctx0 0 tx0 false state0).1.1.MultiStore = some 5 ∧
    ∃ out, (newLegacyAnteMiddleware (some anteOtherStore) innerOk).runAnte isZeroMs ctx0 tx0
        [1] false state0 = some out ∧
      out.1.1.MultiStore = some 0 ∧ out.1.1.gasMeter = some 1 ∧
      out.2.heap.gasMeters[1]? = some { limit := 50, consumed := 20 } := by
  have hv : validateBasicTxMsgs tx0.GetMsgs = none := by decide
  have hok : (anteResult anteOtherStore ctx0 0 tx0 false state0).1.2 = none := by decide
  have hnz : isZeroMs (anteResult anteOtherStore ctx0 0 tx0 false state0).1.1 = false := by
    decide
  obtain ⟨out, h1, _, _, h4, h5, _, _, _, _, _, h11, _⟩ :=
    C9_nonzero_context_kept_except_store isZeroMs
      (newLegacyAnteMiddleware (some anteOtherStore) innerOk) anteOtherStore ctx0 0 tx0 false
      state0 rfl rfl hv hok hnz
  refine ⟨hv, hok, hnz, by decide, out, h1 [1], ?_, ?_, ?_⟩
  · rw [h4]; rfl
  · rw [h5]; rfl
  · rw [h11]; rfl

/-- C10: with no admission function configured and a transaction that passes basic
validation, `runAnte` returns the incoming context and leaves the state as it was (no
branch, no write, no call); each operation then invokes the inner handler with exactly
the incoming context on the incoming heap, and its response and error are those of the
inner handler: the error with an empty response, or the payload fields copied. -/
theorem C10_no_admission_function_passes_through (IsZero : Context → Bool)
    (txh : legacyAnteTxHandler) (ctx : Context) (tx : Tx) (s : State)
    (hnil : txh.anteHandler = none) (hvalid : validateBasicTxMsgs tx.GetMsgs = none) :
    (∀ txBytes isSimulate,
      txh.runAnte IsZero ctx tx txBytes isSimulate s = some ((ctx, none), s)) ∧
    (∀ req, txh.CheckTx IsZero ctx tx req s =
      some ((match (txh.inner.CheckTx ctx tx req s.heap).1.2 with
          | some err => ({}, some err)
          | none => ({ Data := (txh.inner.CheckTx ctx tx req s.heap).1.1.Data,
                       Events := (txh.inner.CheckTx ctx tx req s.heap).1.1.Events,
                       Log := (txh.inner.CheckTx ctx tx req s.heap).1.1.Log }, none)),
        { heap := (txh.inner.CheckTx ctx tx req s.heap).2,
          trace := s.trace ++ [Call.innerCheckTx ctx tx req] })) ∧
    (∀ req, txh.DeliverTx IsZero ctx tx req s =
      some ((match (txh.inner.DeliverTx ctx tx req s.heap).1.2 with
          | some err => ({}, some err)
          | none => ({ Data := (txh.inner.DeliverTx ctx tx req s.heap).1.1.Data,
                       Events := (txh.inner.DeliverTx ctx tx req s.heap).1.1.Events,
                       Log := (txh.inner.DeliverTx ctx tx req s.heap).1.1.Log }, none)),
        { heap := (txh.inner.DeliverTx ctx tx req s.heap).2,
          trace := s.trace ++ [Call.innerDeliverTx ctx tx req] })) ∧
    (∀ req, txh.SimulateTx IsZero ctx tx req s =
      some ((match (txh.inner.SimulateTx ctx tx req s.heap).1.2 with
          | some err => ({}, some err)
          | none => ({ Result := (txh.inner.SimulateTx ctx tx req s.heap).1.1.Result }, none)),
        { heap := (txh.inner.SimulateTx ctx tx req s.heap).2,
          trace := s.trace ++ [Call.innerSimulateTx ctx tx req] })) := by
  have hrun := fun txBytes isSimulate =>
    runAnte_nil IsZero txh ctx tx txBytes isSimulate s hvalid hnil
  exact ⟨hrun,
    fun req => CheckTx_of_runAnte_ok IsZero txh ctx ctx tx req s s (hrun req.Tx false),
    fun req => DeliverTx_of_runAnte_ok IsZero txh ctx ctx tx req s s (hrun req.Tx false),
    fun req => SimulateTx_of_runAnte_ok IsZero txh ctx ctx tx req s s (hrun req.TxBytes true)⟩

theorem C10_no_admission_function_passes_through_witness :
    validateBasicTxMsgs tx0.GetMsgs = none ∧
    (newLegacyAnteMiddleware none innerOk).runAnte isZeroMs ctx0 tx0 [1] false state0 =
      some ((ctx0, none), state0) ∧
    (newLegacyAnteMiddleware none innerOk).CheckTx isZeroMs ctx0 tx0 { Tx := [1] } state0 =
      some (({ Data := [1, 2], Log := "ok" }, none),
        { heap := heap0, trace := [Call.innerCheckTx ctx0 tx0 { Tx := [1] }] }) := by
  have hv : validateBasicTxMsgs tx0.GetMsgs = none := by decide
  have h := C10_no_admission_function_passes_through isZeroMs
    (newLegacyAnteMiddleware none innerOk) ctx0 tx0 state0 rfl hv
  exact ⟨hv, h.1 [1] false, h.2.1 { Tx := [1] }⟩

/-- C11: for a transaction that passes basic validation and a configured admission
function, each operation returns and applies the admission function exactly once, to
the transaction given to the operation: SimulateTx with the simulate flag true,
CheckTx and DeliverTx with the simulate flag false.  The trace gains exactly that call,
and the outcome is the one of that application: when it returns an error the operation
returns that error and the heap it left; when it returns no error the operation returns
the error and the heap of the inner handler run on the context and the committed heap
that follow from that application. -/
theorem C11_admission_called_once_with_mode_flag (IsZero : Context → Bool)
    (txh : legacyAnteTxHandler) (ante : AnteHandler) (ctx : Context) (r : StoreId) (tx : Tx)
    (s : State)
    (hante : txh.anteHandler = some ante) (hms : ctx.MultiStore = some r)
    (hvalid : validateBasicTxMsgs tx.GetMsgs = none) :
    (∀ req, ∃ out, txh.SimulateTx IsZero ctx tx req s = some out ∧
      anteCalls out.2.trace = anteCalls s.trace ++ [(anteCtx ctx s, tx, true)] ∧
      (∀ e, (ante (anteCtx ctx s) tx true (anteHeap r s)).1.2 = some e →
        out.1 = ({}, some e) ∧ out.2.heap = (ante (anteCtx ctx s) tx true (anteHeap r s)).2) ∧
      ((ante (anteCtx ctx s) tx true (anteHeap r s)).1.2 = none →
        out.1.2 = (txh.inner.SimulateTx (postAnteCtx IsZero ante ctx r tx true s) tx req
          (committedHeap ante ctx r tx true s)).1.2 ∧
        out.2.heap = (txh.inner.SimulateTx (postAnteCtx IsZero ante ctx r tx true s) tx req
          (committedHeap ante ctx r tx true s)).2)) ∧
    (∀ req, ∃ out, txh.CheckTx IsZero ctx tx req s = some out ∧
      anteCalls out.2.trace = anteCalls s.trace ++ [(anteCtx ctx s, tx, false)] ∧
      (∀ e, (ante (anteCtx ctx s) tx false (anteHeap r s)).1.2 = some e →
        out.1 = ({}, some e) ∧ out.2.heap = (ante (anteCtx ctx s) tx false (anteHeap r s)).2) ∧
      ((ante (anteCtx ctx s) tx false (anteHeap r s)).1.2 = none →
        out.1.2 = (txh.inner.CheckTx (postAnteCtx IsZero ante ctx r tx false s) tx req
          (committedHeap ante ctx r tx false s)).1.2 ∧
        out.2.heap = (txh.inner.CheckTx (postAnteCtx IsZero ante ctx r tx false s) tx req
          (committedHeap ante ctx r tx false s)).2)) ∧
    (∀ req, ∃ out, txh.DeliverTx IsZero ctx tx req s = some out ∧
      anteCalls out.2.trace = anteCalls s.trace ++ [(anteCtx ctx s, tx, false)] ∧
      (∀ e, (ante (anteCtx ctx s) tx false (anteHeap r s)).1.2 = some e →
        out.1 = ({}, some e) ∧ out.2.heap = (ante (anteCtx ctx s) tx false (anteHeap r s)).2) ∧
      ((ante (anteCtx ctx s) tx false (anteHeap r s)).1.2 = none →
        out.1.2 = (txh.inner.DeliverTx (postAnteCtx IsZero ante ctx r tx false s) tx req
          (committedHeap ante ctx r tx false s)).1.2 ∧
        out.2.heap = (txh.inner.DeliverTx (postAnteCtx IsZero ante ctx r tx false s) tx req
          (committedHeap ante ctx r tx false s)).2)) :=
  ⟨fun req => SimulateTx_applies_ante IsZero txh ante ctx r tx req s hvalid hante hms,
   fun req => CheckTx_applies_ante IsZero txh ante ctx r tx req s hvalid hante hms,
   fun req => DeliverTx_applies_ante IsZero txh ante ctx r tx req s hvalid hante hms⟩

theorem C11_admission_called_once_with_mode_flag_witness :
    validateBasicTxMsgs tx0.GetMsgs = none ∧
    (anteSimulateOnly (anteCtx ctx0 state0) tx0 true (anteHeap 0 state0)).1.2 = none ∧
    (anteSimulateOnly (anteCtx ctx0 state0) tx0 false (anteHeap 0 state0)).1.2 =
      some errUnauthorized ∧
    (∃ out, (newLegacyAnteMiddleware (some anteSimulateOnly) innerOk).SimulateTx isZeroMs ctx0
        tx0 { TxBytes := [1] } state0 = some out ∧
      anteCalls out.2.trace = [(anteCtx ctx0 state0, tx0, true)] ∧ out.1.2 = none) ∧
    (∃ out, (newLegacyAnteMiddleware (some anteSimulateOnly) innerOk).CheckTx isZeroMs ctx0
        tx0 { Tx := [1] } state0 = some out ∧
      anteCalls out.2.trace = [(anteCtx ctx0 state0, tx0, false)] ∧
      out.1 = ({}, some errUnauthorized)) ∧
    (∃ out, (newLegacyAnteMiddleware (some anteSimulateOnly) innerOk).DeliverTx isZeroMs ctx0
        tx0 { Tx := [1] } state0 = some out ∧
      anteCalls out.2.trace = [(anteCtx ctx0 state0, tx0, false)] ∧
      out.1 = ({}, some errUnauthorized)) := by
  have hv : validateBasicTxMsgs tx0.GetMsgs = none := by decide
  have ht : (anteSimulateOnly (anteCtx ctx0 state0) tx0 true (anteHeap 0 state0)).1.2 = none :=
    rfl
  have hf : (anteSimulateOnly (anteCtx ctx0 state0) tx0 false (anteHeap 0 state0)).1.2 =
      some errUnauthorized := rfl
  have h := C11_admission_called_once_with_mode_flag isZeroMs
    (newLegacyAnteMiddleware (some anteSimulateOnly) innerOk) anteSimulateOnly ctx0 0 tx0 state0
    rfl rfl hv
  obtain ⟨outS, hS, hcS, _, hokS⟩ := h.1 { TxBytes := [1] }
  obtain ⟨outC, hC, hcC, herrC, _⟩ := h.2.1 { Tx := [1] }
  obtain ⟨outD, hD, hcD, herrD, _⟩ := h.2.2 { Tx := [1] }
  exact ⟨hv, ht, hf, ⟨outS, hS, hcS, (hokS ht).1⟩, ⟨outC, hC, hcC, (herrC _ hf).1⟩,
    ⟨outD, hD, hcD, (herrD _ hf).1⟩⟩

/-- C12, as stated, fails: on a concrete input SimulateTx invokes the admission function
with the simulate flag true, not false, and CheckTx invokes it with the simulate flag
false, not true; an admission function that succeeds only when the flag is true
succeeds under SimulateTx and aborts under CheckTx. -/
theorem C12_flags_as_stated_counterexample :
    ((newLegacyAnteMiddleware (some anteDeductFee) innerOk).SimulateTx isZeroMs ctx0 tx0
        { TxBytes := [1] } state0).map (fun out => anteFlags out.2.trace) = some [true] ∧
    ((newLegacyAnteMiddleware (some anteDeductFee) innerOk).CheckTx isZeroMs ctx0 tx0
        { Tx := [1] } state0).map (fun out => anteFlags out.2.trace) = some [false] ∧
    ¬ (((newLegacyAnteMiddleware (some anteDeductFee) innerOk).SimulateTx isZeroMs ctx0 tx0
          { TxBytes := [1] } state0).map (fun out => anteFlags out.2.trace) = some [false] ∧
       ((newLegacyAnteMiddleware (some anteDeductFee) innerOk).CheckTx isZeroMs ctx0 tx0
          { Tx := [1] } state0).map (fun out => anteFlags out.2.trace) = some [true]) ∧
    ((newLegacyAnteMiddleware (some anteSimulateOnly) innerOk).SimulateTx isZeroMs ctx0 tx0
        { TxBytes := [1] } state0).map (fun out => out.1.2) = some none ∧
    ((newLegacyAnteMiddleware (some anteSimulateOnly) innerOk).CheckTx isZeroMs ctx0 tx0
        { Tx := [1] } state0).map (fun out => out.1.2) = some (some errUnauthorized) := by
  decide

/-- C12, amended: running the same transaction through SimulateTx and through CheckTx
applies the admission function once each with differing simulate flags: true in
simulation mode and false in admission-check mode.  The traces gain the call with that
flag, and each outcome is the one of the application with that flag: its error and
heap when it returns an error, the error and heap of the inner handler run on what
follows from it when it returns no error. -/
theorem C12_simulate_true_check_false (IsZero : Context → Bool)
    (txh : legacyAnteTxHandler) (ante : AnteHandler) (ctx : Context) (r : StoreId) (tx : Tx)
    (reqS : RequestSimulateTx) (reqC : RequestCheckTx) (s : State)
    (hante : txh.anteHandler = some ante) (hms : ctx.MultiStore = some r)
    (hvalid : validateBasicTxMsgs tx.GetMsgs = none) :
    ∃ outS outC, txh.SimulateTx IsZero ctx tx reqS s = some outS ∧
      txh.CheckTx IsZero ctx tx reqC s = some outC ∧
      anteFlags outS.2.trace = anteFlags s.trace ++ [true] ∧
      anteFlags outC.2.trace = anteFlags s.trace ++ [false] ∧
      anteFlags outS.2.trace ≠ anteFlags outC.2.trace ∧
      (∀ e, (ante (anteCtx ctx s) tx true (anteHeap r s)).1.2 = some e →
        outS.1 = ({}, some e) ∧
        outS.2.heap = (ante (anteCtx ctx s) tx true (anteHeap r s)).2) ∧
      ((ante (anteCtx ctx s) tx true (anteHeap r s)).1.2 = none →
        outS.1.2 = (txh.inner.SimulateTx (postAnteCtx IsZero ante ctx r tx true s) tx reqS
          (committedHeap ante ctx r tx true s)).1.2 ∧
        outS.2.heap = (txh.inner.SimulateTx (postAnteCtx IsZero ante ctx r tx true s) tx reqS
          (committedHeap ante ctx r tx true s)).2) ∧
      (∀ e, (ante (anteCtx ctx s) tx false (anteHeap r s)).1.2 = some e →
        outC.1 = ({}, some e) ∧
        outC.2.heap = (ante (anteCtx ctx s) tx false (anteHeap r s)).2) ∧
      ((ante (anteCtx ctx s) tx false (anteHeap r s)).1.2 = none →
        outC.1.2 = (txh.inner.CheckTx (postAnteCtx IsZero ante ctx r tx false s) tx reqC
          (committedHeap ante ctx r tx false s)).1.2 ∧
        outC.2.heap = (txh.inner.CheckTx (postAnteCtx IsZero ante ctx r tx false s) tx reqC
          (committedHeap ante ctx r tx false s)).2) := by
  obtain ⟨outS, hS, hcS, herrS, hokS⟩ :=
    SimulateTx_applies_ante IsZero txh ante ctx r tx reqS s hvalid hante hms
  obtain ⟨outC, hC, hcC, herrC, hokC⟩ :=
    CheckTx_applies_ante IsZero txh ante ctx r tx reqC s hvalid hante hms
  have hfS : anteFlags outS.2.trace = anteFlags s.trace ++ [true] := by
    simp [anteFlags, hcS]
  have hfC : anteFlags outC.2.trace = anteFlags s.trace ++ [false] := by
    simp [anteFlags, hcC]
  refine ⟨outS, outC, hS, hC, hfS, hfC, ?_, herrS, hokS, herrC, hokC⟩
  rw [hfS, hfC]
  intro h
  have h2 := List.append_cancel_left h
  cases h2

theorem C12_simulate_true_check_false_witness :
    validateBasicTxMsgs tx0.GetMsgs = none ∧
    (anteSimulateOnly (anteCtx ctx0 state0) tx0 true (anteHeap 0 state0)).1.2 = none ∧
    (anteSimulateOnly (anteCtx ctx0 state0) tx0 false (anteHeap 0 state0)).1.2 =
      some errUnauthorized ∧
    ∃ outS outC,
      (newLegacyAnteMiddleware (some anteSimulateOnly) innerOk).SimulateTx isZeroMs ctx0 tx0
        { TxBytes := [1] } state0 = some outS ∧
      (newLegacyAnteMiddleware (some anteSimulateOnly) innerOk).CheckTx isZeroMs ctx0 tx0
        { Tx := [1] } state0 = some outC ∧
      anteFlags outS.2.trace = [true] ∧ anteFlags outC.2.trace = [false] ∧
      outS.1.2 = none ∧ outC.1 = ({}, some errUnauthorized) := by
  have hv : validateBasicTxMsgs tx0.GetMsgs = none := by decide
  have ht : (anteSimulateOnly (anteCtx ctx0 state0) tx0 true (anteHeap 0 state0)).1.2 = none :=
    rfl
  have hf : (anteSimulateOnly (anteCtx ctx0 state0) tx0 false (anteHeap 0 state0)).1.2 =
      some errUnauthorized := rfl
  obtain ⟨outS, outC, hS, hC, hfS, hfC, _, _, hokS, herrC, _⟩ :=
    C12_simulate_true_check_false isZeroMs
      (newLegacyAnteMiddleware (some anteSimulateOnly) innerOk) anteSimulateOnly ctx0 0 tx0
      { TxBytes := [1] } { Tx := [1] } state0 rfl rfl hv
  exact ⟨hv, ht, hf, outS, outC, hS, hC, hfS, hfC, (hokS ht).1, (herrC _ hf).1⟩

/-- C13: on the success path (basic validation passes, the admission function is absent
or returns no error, the inner handler returns no error) each operation returns no
error, adds exactly one call of the inner handler of the same mode to the trace, after
the calls of `runAnte`, with the post-admission context and the same transaction and
request, and copies the payload: Data, Events and Log of the inner response for CheckTx
and DeliverTx, Result of the inner response for SimulateTx. -/
theorem C13_success_path_copies_inner_payload (IsZero : Context → Bool)
    (txh : legacyAnteTxHandler) (ctx : Context) (tx : Tx) (s : State)
    (hvalid : validateBasicTxMsgs tx.GetMsgs = none) :
    (txh.anteHandler = none →
      (∀ req, (txh.inner.CheckTx ctx tx req s.heap).1.2 = none →
        ∃ out, txh.CheckTx IsZero ctx tx req s = some out ∧ out.1.2 = none ∧
          out.1.1.Data = (txh.inner.CheckTx ctx tx req s.heap).1.1.Data ∧
          out.1.1.Events = (txh.inner.CheckTx ctx tx req s.heap).1.1.Events ∧
          out.1.1.Log = (txh.inner.CheckTx ctx tx req s.heap).1.1.Log ∧
          out.2.trace = s.trace ++ [Call.innerCheckTx ctx tx req] ∧
          out.2.heap = (txh.inner.CheckTx ctx tx req s.heap).2) ∧
      (∀ req, (txh.inner.DeliverTx ctx tx req s.heap).1.2 = none →
        ∃ out, txh.DeliverTx IsZero ctx tx req s = some out ∧ out.1.2 = none ∧
          out.1.1.Data = (txh.inner.DeliverTx ctx tx req s.heap).1.1.Data ∧
          out.1.1.Events = (txh.inner.DeliverTx ctx tx req s.heap).1.1.Events ∧
          out.1.1.Log = (txh.inner.DeliverTx ctx tx req s.heap).1.1.Log ∧
          out.2.trace = s.trace ++ [Call.innerDeliverTx ctx tx req] ∧
          out.2.heap = (txh.inner.DeliverTx ctx tx req s.heap).2) ∧
      (∀ req, (txh.inner.SimulateTx ctx tx req s.heap).1.2 = none →
        ∃ out, txh.SimulateTx IsZero ctx tx req s = some out ∧ out.1.2 = none ∧
          out.1.1.Result = (txh.inner.SimulateTx ctx tx req s.heap).1.1.Result ∧
          out.2.trace = s.trace ++ [Call.innerSimulateTx ctx tx req] ∧
          out.2.heap = (txh.inner.SimulateTx ctx tx req s.heap).2)) ∧
    (∀ ante r, txh.anteHandler = some ante → ctx.MultiStore = some r →
      ((anteResult ante ctx r tx false s).1.2 = none →
        ∀ req, (txh.inner.CheckTx (postAnteCtx IsZero ante ctx r tx false s) tx req
            (committedHeap ante ctx r tx false s)).1.2 = none →
        ∃ out, txh.CheckTx IsZero ctx tx req s = some out ∧ out.1.2 = none ∧
          out.1.1.Data = (txh.inner.CheckTx (postAnteCtx IsZero ante ctx r tx false s) tx req
            (committedHeap ante ctx r tx false s)).1.1.Data ∧
          out.1.1.Events = (txh.inner.CheckTx (postAnteCtx IsZero ante ctx r tx false s) tx
            req (committedHeap ante ctx r tx false s)).1.1.Events ∧
          out.1.1.Log = (txh.inner.CheckTx (postAnteCtx IsZero ante ctx r tx false s) tx req
            (committedHeap ante ctx r tx false s)).1.1.Log ∧
          out.2.trace = committedTrace ctx r tx false s ++
            [Call.innerCheckTx (postAnteCtx IsZero ante ctx r tx false s) tx req] ∧
          out.2.heap = (txh.inner.CheckTx (postAnteCtx IsZero ante ctx r tx false s) tx req
            (committedHeap ante ctx r tx false s)).2) ∧
      ((anteResult ante ctx r tx false s).1.2 = none →
        ∀ req, (txh.inner.DeliverTx (postAnteCtx IsZero ante ctx r tx false s) tx req
            (committedHeap ante ctx r tx false s)).1.2 = none →
        ∃ out, txh.DeliverTx IsZero ctx tx req s = some out ∧ out.1.2 = none ∧
          out.1.1.Data = (txh.inner.DeliverTx (postAnteCtx IsZero ante ctx r tx false s) tx req
            (committedHeap ante ctx r tx false s)).1.1.Data ∧
          out.1.1.Events = (txh.inner.DeliverTx (postAnteCtx IsZero ante ctx r tx false s) tx
            req (committedHeap ante ctx r tx false s)).1.1.Events ∧
          out.1.1.Log = (txh.inner.DeliverTx (postAnteCtx IsZero ante ctx r tx false s) tx req
            (committedHeap ante ctx r tx false s)).1.1.Log ∧
          out.2.trace = committedTrace ctx r tx false s ++
            [Call.innerDeliverTx (postAnteCtx IsZero ante ctx r tx false s) tx req] ∧
          out.2.heap = (txh.inner.DeliverTx (postAnteCtx IsZero ante ctx r tx false s) tx req
            (committedHeap ante ctx r tx false s)).2) ∧
      ((anteResult ante ctx r tx true s).1.2 = none →
        ∀ req, (txh.inner.SimulateTx (postAnteCtx IsZero ante ctx r tx true s) tx req
            (committedHeap ante ctx r tx true s)).1.2 = none →
        ∃ out, txh.SimulateTx IsZero ctx tx req s = some out ∧ out.1.2 = none ∧
          out.1.1.Result = (txh.inner.SimulateTx (postAnteCtx IsZero ante ctx r tx true s) tx
            req (committedHeap ante ctx r tx true s)).1.1.Result ∧
          out.2.trace = committedTrace ctx r tx true s ++
            [Call.innerSimulateTx (postAnteCtx IsZero ante ctx r tx true s) tx req] ∧
          out.2.heap = (txh.inner.SimulateTx (postAnteCtx IsZero ante ctx r tx true s) tx req
            (committedHeap ante ctx r tx true s)).2)) := by
  constructor
  · intro hnil
    have hrun := fun txBytes isSimulate =>
      runAnte_nil IsZero txh ctx tx txBytes isSimulate s hvalid hnil
    exact ⟨fun req hin => CheckTx_success IsZero txh ctx ctx tx req s s (hrun _ _) hin,
      fun req hin => DeliverTx_success IsZero txh ctx ctx tx req s s (hrun _ _) hin,
      fun req hin => SimulateTx_success IsZero txh ctx ctx tx req s s (hrun _ _) hin⟩
  · intro ante r hante hms
    have hrun := fun txBytes isSimulate hok =>
      runAnte_ante_ok IsZero txh ante ctx r tx txBytes isSimulate s hvalid hante hms hok
    exact ⟨fun hok req hin => CheckTx_success IsZero txh ctx _ tx req s _ (hrun _ _ hok) hin,
      fun hok req hin => DeliverTx_success IsZero txh ctx _ tx req s _ (hrun _ _ hok) hin,
      fun hok req hin => SimulateTx_success IsZero txh ctx _ tx req s _ (hrun _ _ hok) hin⟩

theorem C13_success_path_copies_inner_payload_witness :
    validateBasicTxMsgs tx0.GetMsgs = none ∧
    (anteResult anteDeductFee ctx0 0 tx0 false state0).1.2 = none ∧
    (innerOk.CheckTx (postAnteCtx isZeroMs anteDeductFee ctx0 0 tx0 false state0) tx0
      { Tx := [1] } (committedHeap anteDeductFee ctx0 0 tx0 false state0)).1.2 = none ∧
    ∃ out, (newLegacyAnteMiddleware (some anteDeductFee) innerOk).CheckTx isZeroMs ctx0 tx0
        { Tx := [1] } state0 = some out ∧
      out.1.2 = none ∧ out.1.1.Data = [1, 2] ∧ out.1.1.Log = "ok" ∧
      out.2.trace = [Call.cacheTxContext 0 1, Call.anteHandler (anteCtx ctx0 state0) tx0 false,
        Call.write 1,
        Call.innerCheckTx (postAnteCtx isZeroMs anteDeductFee ctx0 0 tx0 false state0) tx0
          { Tx := [1] }] := by
  have hv : validateBasicTxMsgs tx0.GetMsgs = none := by decide
  have hok : (anteResult anteDeductFee ctx0 0 tx0 false state0).1.2 = none := by decide
  obtain ⟨out, h1, h2, h3, _, h5, h6, _⟩ :=
    ((C13_success_path_copies_inner_payload isZeroMs
      (newLegacyAnteMiddleware (some anteDeductFee) innerOk) ctx0 tx0 state0 hv).2
      anteDeductFee 0 rfl rfl).1 hok { Tx := [1] } rfl
  exact ⟨hv, hok, rfl, out, h1, h2, h3, h5, h6⟩

/-- C14: whenever the admission function is invoked, the context it receives has as
state handle a branch of the store of the incoming context, a new object and not that
store itself, which reads like that store, and as event log a new, empty event
manager, so that no event of the incoming event log is in it; the events an admission
function emits through its context are not appended to any event log that existed
before, in particular not to the one of the incoming context. -/
theorem C14_admission_gets_branch_and_fresh_event_log (IsZero : Context → Bool)
    (txh : legacyAnteTxHandler) (ante : AnteHandler) (ctx : Context) (r : StoreId) (tx : Tx)
    (txBytes : List Nat) (isSimulate : Bool) (s : State)
    (hante : txh.anteHandler = some ante) (hms : ctx.MultiStore = some r)
    (hvalid : validateBasicTxMsgs tx.GetMsgs = none) :
    ∃ out, txh.runAnte IsZero ctx tx txBytes isSimulate s = some out ∧
      out.1.2 = (anteResult ante ctx r tx isSimulate s).1.2 ∧
      anteCalls out.2.trace = anteCalls s.trace ++ [(anteCtx ctx s, tx, isSimulate)] ∧
      Call.cacheTxContext r (branchId s) ∈ out.2.trace ∧
      (anteCtx ctx s).MultiStore = some (branchId s) ∧
      s.heap.stores[branchId s]? = none ∧
      (anteHeap r s).stores[branchId s]? = some { parent := some r, entries := [] } ∧
      (r < s.heap.stores.length →
        branchId s ≠ r ∧ ∀ k, (anteHeap r s).Get (branchId s) k = s.heap.Get r k) ∧
      (anteCtx ctx s).eventManager = some (anteEventManager s) ∧
      s.heap.eventManagers[anteEventManager s]? = none ∧
      (anteHeap r s).eventManagers[anteEventManager s]? = some [] ∧
      (∀ e0, ctx.eventManager = some e0 → e0 < s.heap.eventManagers.length →
        (anteCtx ctx s).eventManager ≠ some e0) ∧
      (EmitsThroughContext ante → ∀ e0, e0 < s.heap.eventManagers.length →
        (anteResult ante ctx r tx isSimulate s).2.eventManagers[e0]? =
          s.heap.eventManagers[e0]? ∧
        out.2.heap.eventManagers[e0]? = s.heap.eventManagers[e0]?) := by
  obtain ⟨out, hrun, herr, hem, _, hcalls, hbranch⟩ :=
    runAnte_eventManagers IsZero txh ante ctx r tx txBytes isSimulate s hvalid hante hms
  refine ⟨out, hrun, herr, hcalls, hbranch, rfl, ?_, ?_, ?_, rfl, ?_, ?_, ?_, ?_⟩
  · exact List.getElem?_eq_none (le_refl _)
  · simp only [anteHeap, NewEventManager, Heap.CacheMultiStore, branchId]
    exact getElem?_branch _ [] _
  · intro hr
    have hr' : @LT.lt Nat _ r s.heap.stores.length := hr
    refine ⟨?_, ?_⟩
    · intro heq
      have heq' : @Eq Nat s.heap.stores.length r := heq
      omega
    · intro k
      have h := Get_branch (anteHeap r s) s.heap.stores [] r [] k rfl hr'
      rw [branchId, h]
      rfl
  · exact List.getElem?_eq_none (le_refl _)
  · simp only [anteHeap, NewEventManager, Heap.CacheMultiStore, anteEventManager]
    rw [List.getElem?_append_right (le_refl _)]
    simp
  · intro e0 _ he0 heq
    have h1 : (anteCtx ctx s).eventManager = some s.heap.eventManagers.length := rfl
    rw [h1] at heq
    have heq' : @Eq Nat s.heap.eventManagers.length e0 := Option.some.inj heq
    have he0' : @LT.lt Nat _ e0 s.heap.eventManagers.length := he0
    omega
  · intro hemit e0 he0
    have h := eventManagers_anteResult ante ctx r tx isSimulate s hemit e0 he0
    exact ⟨h, by rw [hem]; exact h⟩

theorem C14_admission_gets_branch_and_fresh_event_log_witness :
    validateBasicTxMsgs tx0.GetMsgs = none ∧
    state0.heap.eventManagers[0]? = some [{ kind := "begin", attributes := [] }] ∧
    ∃ out, (newLegacyAnteMiddleware (some anteFeeEvent) innerOk).runAnte isZeroMs ctx0 tx0 [1]
        false state0 = some out ∧
      out.1.2 = none ∧
      out.2.heap.eventManagers[0]? = some [{ kind := "begin", attributes := [] }] ∧
      out.2.heap.eventManagers[1]? = some [evFee] := by
  have hv : validateBasicTxMsgs tx0.GetMsgs = none := by decide
  obtain ⟨out, h1, h2, _, _, _, _, _, _, _, _, _, _, h13⟩ :=
    C14_admission_gets_branch_and_fresh_event_log isZeroMs
      (newLegacyAnteMiddleware (some anteFeeEvent) innerOk) anteFeeEvent ctx0 0 tx0 [1] false
      state0 rfl rfl hv
  have hrun : (newLegacyAnteMiddleware (some anteFeeEvent) innerOk).runAnte isZeroMs ctx0 tx0
      [1] false state0 = some out := h1
  refine ⟨hv, by decide, out, h1, ?_, ?_, ?_⟩
  · rw [h2]; decide
  · rw [(h13 EmitsThroughContext_anteFeeEvent 0 (by decide)).2]; decide
  · have hd : ((newLegacyAnteMiddleware (some anteFeeEvent) innerOk).runAnte isZeroMs ctx0 tx0
        [1] false state0).map (fun o => o.2.heap.eventManagers[1]?) = some (some [evFee]) := by
      decide
    rw [hrun] at hd
    exact Option.some.inj hd

/-- C15, as stated, fails: an admission function that records a consumption of 7 on the
gas meter of the context it is given and then aborts leaves that consumption on the
gas meter of the caller (meter 0 of the incoming context), which read 0 before. -/
theorem C15_consumption_on_shared_meter_counterexample :
    ctx0.gasMeter = some 0 ∧
    state0.heap.gasMeters[0]? = some { limit := 1000, consumed := 0 } ∧
    ((newLegacyAnteMiddleware (some anteConsumeAbort) innerOk).CheckTx isZeroMs ctx0 tx0
        { Tx := [1] } state0).map (fun out => (out.1.2, out.2.heap.gasMeters[0]?)) =
      some (some errUnauthorized, some { limit := 1000, consumed := 7 }) := by
  decide

/-- C15, amended: when the admission function returns an error, each of CheckTx,
DeliverTx and SimulateTx returns that error and leaves every gas meter as the admission
function left it; a gas meter on which the admission function recorded nothing, such
as the meter of the caller when the admission function records on a meter of its own,
reflects only pre-admission state. -/
theorem C15_meters_as_admission_left_them (IsZero : Context → Bool)
    (txh : legacyAnteTxHandler) (ante : AnteHandler) (ctx : Context) (r : StoreId) (tx : Tx)
    (s : State)
    (hante : txh.anteHandler = some ante) (hms : ctx.MultiStore = some r)
    (hvalid : validateBasicTxMsgs tx.GetMsgs = none) :
    ((anteResult ante ctx r tx false s).1.2 ≠ none → ∀ req,
      ∃ out, txh.CheckTx IsZero ctx tx req s = some out ∧
        out.1.2 = (anteResult ante ctx r tx false s).1.2 ∧
        out.2.heap.gasMeters = (anteResult ante ctx r tx false s).2.gasMeters ∧
        ∀ m : Nat, (anteResult ante ctx r tx false s).2.gasMeters[m]? = s.heap.gasMeters[m]? →
          out.2.heap.gasMeters[m]? = s.heap.gasMeters[m]?) ∧
    ((anteResult ante ctx r tx false s).1.2 ≠ none → ∀ req,
      ∃ out, txh.DeliverTx IsZero ctx tx req s = some out ∧
        out.1.2 = (anteResult ante ctx r tx false s).1.2 ∧
        out.2.heap.gasMeters = (anteResult ante ctx r tx false s).2.gasMeters ∧
        ∀ m : Nat, (anteResult ante ctx r tx false s).2.gasMeters[m]? = s.heap.gasMeters[m]? →
          out.2.heap.gasMeters[m]? = s.heap.gasMeters[m]?) ∧
    ((anteResult ante ctx r tx true s).1.2 ≠ none → ∀ req,
      ∃ out, txh.SimulateTx IsZero ctx tx req s = some out ∧
        out.1.2 = (anteResult ante ctx r tx true s).1.2 ∧
        out.2.heap.gasMeters = (anteResult ante ctx r tx true s).2.gasMeters ∧
        ∀ m : Nat, (anteResult ante ctx r tx true s).2.gasMeters[m]? = s.heap.gasMeters[m]? →
          out.2.heap.gasMeters[m]? = s.heap.gasMeters[m]?) := by
  refine ⟨?_, ?_, ?_⟩
  · intro hne req
    obtain ⟨e, s1, he, hrun, hgm⟩ :=
      gasMeters_on_admission_error IsZero txh ante ctx r tx req.Tx false s hvalid hante hms hne
    exact ⟨_, CheckTx_of_runAnte_err IsZero txh ctx _ tx req s s1 e hrun, he.symm, hgm,
      fun m hm => by rw [← hm]; exact congrArg (fun l => l[m]?) hgm⟩
  · intro hne req
    obtain ⟨e, s1, he, hrun, hgm⟩ :=
      gasMeters_on_admission_error IsZero txh ante ctx r tx req.Tx false s hvalid hante hms hne
    exact ⟨_, DeliverTx_of_runAnte_err IsZero txh ctx _ tx req s s1 e hrun, he.symm, hgm,
      fun m hm => by rw [← hm]; exact congrArg (fun l => l[m]?) hgm⟩
  · intro hne req
    obtain ⟨e, s1, he, hrun, hgm⟩ :=
      gasMeters_on_admission_error IsZero txh ante ctx r tx req.TxBytes true s hvalid hante hms
        hne
    exact ⟨_, SimulateTx_of_runAnte_err IsZero txh ctx _ tx req s s1 e hrun, he.symm, hgm,
      fun m hm => by rw [← hm]; exact congrArg (fun l => l[m]?) hgm⟩

theorem C15_meters_as_admission_left_them_witness :
    validateBasicTxMsgs tx0.GetMsgs = none ∧
    (anteResult anteMeterAbort ctx0 0 tx0 false state0).1.2 ≠ none ∧
    (anteResult anteMeterAbort ctx0 0 tx0 false state0).2.gasMeters[1]? =
      some { limit := 50, consumed := 20 } ∧
    state0.heap.gasMeters[0]? = some { limit := 1000, consumed := 0 } ∧
    ∃ out, (newLegacyAnteMiddleware (some anteMeterAbort) innerOk).CheckTx isZeroMs ctx0 tx0
        { Tx := [1] } state0 = some out ∧
      out.1.2 = some errUnauthorized ∧
      out.2.heap.gasMeters[0]? = some { limit := 1000, consumed := 0 } := by
  have hv : validateBasicTxMsgs tx0.GetMsgs = none := by decide
  have hne : (anteResult anteMeterAbort ctx0 0 tx0 false state0).1.2 ≠ none := by decide
  obtain ⟨out, h1, h2, _, h4⟩ := (C15_meters_as_admission_left_them isZeroMs
    (newLegacyAnteMiddleware (some anteMeterAbort) innerOk) anteMeterAbort ctx0 0 tx0 state0
    rfl rfl hv).1 hne { Tx := [1] }
  refine ⟨hv, hne, by decide, by decide, out, h1, ?_, ?_⟩
  · rw [h2]; decide
  · rw [h4 0 (by decide)]; decide

/-- C18 fails on the code: for an admission function that returns an error together
with a non-zero context carrying the gas meter it instantiated, `runAnte` returns the
zero context `sdk.Context{}`, which carries no gas meter, and not a context updated from
the one the admission function returned. -/
theorem C18_abort_returns_zero_context :
    (anteResult anteMeterAbort ctx0 0 tx0 false state0).1.2 = some errUnauthorized ∧
    isZeroMs (anteResult anteMeterAbort ctx0 0 tx0 false state0).1.1 = false ∧
    (anteResult anteMeterAbort ctx0 0 tx0 false state0).1.1.gasMeter = some 1 ∧
    (anteResult anteMeterAbort ctx0 0 tx0 false state0).2.gasMeters[1]? =
      some { limit := 50, consumed := 20 } ∧
    ((newLegacyAnteMiddleware (some anteMeterAbort) innerOk).runAnte isZeroMs ctx0 tx0 [1] false
        state0).map (fun out => out.1) = some (Context.zero, some errUnauthorized) ∧
    Context.zero.gasMeter = none ∧
    ((newLegacyAnteMiddleware (some anteMeterAbort) innerOk).runAnte isZeroMs ctx0 tx0 [1] false
        state0).map (fun out => out.1.1.gasMeter) ≠
      some (anteResult anteMeterAbort ctx0 0 tx0 false state0).1.1.gasMeter := by
  decide

/-- C19: when the admission function returns no error together with a zero context,
`runAnte` still commits the branch (after it the root store reads what the branch read
at the end of admission) and returns the incoming context unchanged, which is the
context the inner handler then receives: its event manager and gas meter are those of
the incoming context, not what the admission function put on its own context, and the
event logs that existed before hold no event the admission function emitted through
its context. -/
theorem C19_zero_context_commits_and_keeps_incoming (IsZero : Context → Bool)
    (txh : legacyAnteTxHandler) (ante : AnteHandler) (ctx : Context) (r : StoreId) (tx : Tx)
    (isSimulate : Bool) (s : State)
    (hante : txh.anteHandler = some ante) (hconf : WritesThroughContext ante)
    (hms : ctx.MultiStore = some r) (hr : r < s.heap.stores.length)
    (hvalid : validateBasicTxMsgs tx.GetMsgs = none)
    (hok : (anteResult ante ctx r tx isSimulate s).1.2 = none)
    (hz : IsZero (anteResult ante ctx r tx isSimulate s).1.1 = true) :
    ∃ out : (Context × Option Error) × State,
      (∀ txBytes, txh.runAnte IsZero ctx tx txBytes isSimulate s = some out) ∧
      out.1 = (ctx, none) ∧
      out.2.trace = s.trace ++ [Call.cacheTxContext r (branchId s),
        Call.anteHandler (anteCtx ctx s) tx isSimulate, Call.write (branchId s)] ∧
      (∀ k, out.2.heap.Get r k =
        (anteResult ante ctx r tx isSimulate s).2.Get (branchId s) k) ∧
      out.1.1.eventManager = ctx.eventManager ∧
      out.1.1.gasMeter = ctx.gasMeter ∧
      (EmitsThroughContext ante → ∀ e0 : Nat, e0 < s.heap.eventManagers.length →
        out.2.heap.eventManagers[e0]? = s.heap.eventManagers[e0]?) ∧
      (isSimulate = false → ∀ req, ∃ res,
        txh.CheckTx IsZero ctx tx req s = some (res,
          { heap := (txh.inner.CheckTx ctx tx req out.2.heap).2,
            trace := out.2.trace ++ [Call.innerCheckTx ctx tx req] })) ∧
      (isSimulate = false → ∀ req, ∃ res,
        txh.DeliverTx IsZero ctx tx req s = some (res,
          { heap := (txh.inner.DeliverTx ctx tx req out.2.heap).2,
            trace := out.2.trace ++ [Call.innerDeliverTx ctx tx req] })) ∧
      (isSimulate = true → ∀ req, ∃ res,
        txh.SimulateTx IsZero ctx tx req s = some (res,
          { heap := (txh.inner.SimulateTx ctx tx req out.2.heap).2,
            trace := out.2.trace ++ [Call.innerSimulateTx ctx tx req] })) := by
  have hrun := fun txBytes =>
    runAnte_ante_ok IsZero txh ante ctx r tx txBytes isSimulate s hvalid hante hms hok
  simp only [hz, Bool.not_true, Bool.false_eq_true, if_false] at hrun
  obtain ⟨ws, extra, _, hget⟩ := Get_committedHeap ante ctx r tx isSimulate s hconf hr
  refine ⟨_, hrun, rfl, rfl, fun k => (hget k).1, rfl, rfl, ?_, ?_, ?_, ?_⟩
  · intro hemit e0 he0
    show ((anteResult ante ctx r tx isSimulate s).2.Write (branchId s)).eventManagers[e0]? = _
    rw [(rest_Write _ _).2]
    exact eventManagers_anteResult ante ctx r tx isSimulate s hemit e0 he0
  · intro hsim req
    subst hsim
    exact ⟨_, CheckTx_of_runAnte_ok IsZero txh ctx _ tx req s _ (hrun req.Tx)⟩
  · intro hsim req
    subst hsim
    exact ⟨_, DeliverTx_of_runAnte_ok IsZero txh ctx _ tx req s _ (hrun req.Tx)⟩
  · intro hsim req
    subst hsim
    exact ⟨_, SimulateTx_of_runAnte_ok IsZero txh ctx _ tx req s _ (hrun req.TxBytes)⟩

theorem C19_zero_context_commits_and_keeps_incoming_witness :
    validateBasicTxMsgs tx0.GetMsgs = none ∧
    (anteResult anteZeroCtx ctx0 0 tx0 false state0).1.2 = none ∧
    isZeroMs (anteResult anteZeroCtx ctx0 0 tx0 false state0).1.1 = true ∧
    (anteResult anteZeroCtx ctx0 0 tx0 false state0).1.1.gasMeter = some 1 ∧
    (anteResult anteZeroCtx ctx0 0 tx0 false state0).1.1.eventManager = some 1 ∧
    state0.heap.Get 0 "balance" = some 100 ∧
    ∃ out, (newLegacyAnteMiddleware (some anteZeroCtx) innerOk).runAnte isZeroMs ctx0 tx0 [1]
        false state0 = some out ∧
      out.1 = (ctx0, none) ∧ out.2.heap.Get 0 "balance" = some 90 ∧
      out.2.heap.eventManagers[0]? = some [{ kind := "begin", attributes := [] }] := by
  have hv : validateBasicTxMsgs tx0.GetMsgs = none := by decide
  have hok : (anteResult anteZeroCtx ctx0 0 tx0 false state0).1.2 = none := by decide
  have hz : isZeroMs (anteResult anteZeroCtx ctx0 0 tx0 false state0).1.1 = true := by decide
  obtain ⟨out, h1, h2, _, h4, _, _, h7, _⟩ := C19_zero_context_commits_and_keeps_incoming
    isZeroMs (newLegacyAnteMiddleware (some anteZeroCtx) innerOk) anteZeroCtx ctx0 0 tx0 false
    state0 rfl WritesThroughContext_anteZeroCtx rfl (by decide) hv hok hz
  refine ⟨hv, hok, hz, by decide, by decide, by decide, out, h1 [1], h2, ?_, ?_⟩
  · rw [h4 "balance"]; decide
  · rw [h7 EmitsThroughContext_anteZeroCtx 0 (by decide)]; decide

/-- C20: the response CheckTx and DeliverTx return has Code, Info, GasWanted, GasUsed
and Codespace zero, whatever the inner handler put there: on the success path it is
the response holding only Data, Events and Log of the inner response; the response
SimulateTx returns has zero gas info, and on the success path holds only Result of
the inner response. -/
theorem C20_only_payload_fields_are_copied (IsZero : Context → Bool)
    (txh : legacyAnteTxHandler) (ctx : Context) (tx : Tx) (s : State) :
    (∀ req out, txh.CheckTx IsZero ctx tx req s = some out →
      out.1.1.Code = 0 ∧ out.1.1.Info = "" ∧ out.1.1.GasWanted = 0 ∧ out.1.1.GasUsed = 0 ∧
      out.1.1.Codespace = "") ∧
    (∀ req out, txh.DeliverTx IsZero ctx tx req s = some out →
      out.1.1.Code = 0 ∧ out.1.1.Info = "" ∧ out.1.1.GasWanted = 0 ∧ out.1.1.GasUsed = 0 ∧
      out.1.1.Codespace = "") ∧
    (∀ req out, txh.SimulateTx IsZero ctx tx req s = some out → out.1.1.GasInfo = {}) ∧
    (∀ req c s1, txh.runAnte IsZero ctx tx req.Tx false s = some ((c, none), s1) →
      (txh.inner.CheckTx c tx req s1.heap).1.2 = none →
      ∃ s2, txh.CheckTx IsZero ctx tx req s =
        some (({ Data := (txh.inner.CheckTx c tx req s1.heap).1.1.Data,
                 Events := (txh.inner.CheckTx c tx req s1.heap).1.1.Events,
                 Log := (txh.inner.CheckTx c tx req s1.heap).1.1.Log }, none), s2)) ∧
    (∀ req c s1, txh.runAnte IsZero ctx tx req.Tx false s = some ((c, none), s1) →
      (txh.inner.DeliverTx c tx req s1.heap).1.2 = none →
      ∃ s2, txh.DeliverTx IsZero ctx tx req s =
        some (({ Data := (txh.inner.DeliverTx c tx req s1.heap).1.1.Data,
                 Events := (txh.inner.DeliverTx c tx req s1.heap).1.1.Events,
                 Log := (txh.inner.DeliverTx c tx req s1.heap).1.1.Log }, none), s2)) ∧
    (∀ req c s1, txh.runAnte IsZero ctx tx req.TxBytes true s = some ((c, none), s1) →
      (txh.inner.SimulateTx c tx req s1.heap).1.2 = none →
      ∃ s2, txh.SimulateTx IsZero ctx tx req s =
        some (({ Result := (txh.inner.SimulateTx c tx req s1.heap).1.1.Result }, none), s2)) := by
  refine ⟨?_, ?_, ?_, ?_, ?_, ?_⟩
  · intro req out h
    cases hrun : txh.runAnte IsZero ctx tx req.Tx false s with
    | none => simp [legacyAnteTxHandler.CheckTx, hrun] at h
    | some a =>
      obtain ⟨⟨c, err⟩, s1⟩ := a
      cases err with
      | some e =>
        rw [CheckTx_of_runAnte_err IsZero txh ctx c tx req s s1 e hrun] at h
        cases h; exact ⟨rfl, rfl, rfl, rfl, rfl⟩
      | none =>
        rw [CheckTx_of_runAnte_ok IsZero txh ctx c tx req s s1 hrun] at h
        cases hin : (txh.inner.CheckTx c tx req s1.heap).1.2 with
        | some e => rw [hin] at h; cases h; exact ⟨rfl, rfl, rfl, rfl, rfl⟩
        | none => rw [hin] at h; cases h; exact ⟨rfl, rfl, rfl, rfl, rfl⟩
  · intro req out h
    cases hrun : txh.runAnte IsZero ctx tx req.Tx false s with
    | none => simp [legacyAnteTxHandler.DeliverTx, hrun] at h
    | some a =>
      obtain ⟨⟨c, err⟩, s1⟩ := a
      cases err with
      | some e =>
        rw [DeliverTx_of_runAnte_err IsZero txh ctx c tx req s s1 e hrun] at h
        cases h; exact ⟨rfl, rfl, rfl, rfl, rfl⟩
      | none =>
        rw [DeliverTx_of_runAnte_ok IsZero txh ctx c tx req s s1 hrun] at h
        cases hin : (txh.inner.DeliverTx c tx req s1.heap).1.2 with
        | some e => rw [hin] at h; cases h; exact ⟨rfl, rfl, rfl, rfl, rfl⟩
        | none => rw [hin] at h; cases h; exact ⟨rfl, rfl, rfl, rfl, rfl⟩
  · intro req out h
    cases hrun : txh.runAnte IsZero ctx tx req.TxBytes true s with
    | none => simp [legacyAnteTxHandler.SimulateTx, hrun] at h
    | some a =>
      obtain ⟨⟨c, err⟩, s1⟩ := a
      cases err with
      | some e =>
        rw [SimulateTx_of_runAnte_err IsZero txh ctx c tx req s s1 e hrun] at h
        cases h; rfl
      | none =>
        rw [SimulateTx_of_runAnte_ok IsZero txh ctx c tx req s s1 hrun] at h
        cases hin : (txh.inner.SimulateTx c tx req s1.heap).1.2 with
        | some e => rw [hin] at h; cases h; rfl
        | none => rw [hin] at h; cases h; rfl
  · intro req c s1 hrun hin
    have h := CheckTx_of_runAnte_ok IsZero txh ctx c tx req s s1 hrun
    rw [hin] at h
    exact ⟨_, h⟩
  · intro req c s1 hrun hin
    have h := DeliverTx_of_runAnte_ok IsZero txh ctx c tx req s s1 hrun
    rw [hin] at h
    exact ⟨_, h⟩
  · intro req c s1 hrun hin
    have h := SimulateTx_of_runAnte_ok IsZero txh ctx c tx req s s1 hrun
    rw [hin] at h
    exact ⟨_, h⟩

theorem C20_only_payload_fields_are_copied_witness :
    (innerOk.CheckTx ctx0 tx0 { Tx := [1] } heap0).1.1.GasUsed = 3 ∧
    (innerOk.SimulateTx ctx0 tx0 { TxBytes := [1] } heap0).1.1.GasInfo =
      { GasWanted := 5, GasUsed := 3 } ∧
    (∃ out, (newLegacyAnteMiddleware none innerOk).CheckTx isZeroMs ctx0 tx0 { Tx := [1] }
        state0 = some out ∧
      out.1.1.Data = [1, 2] ∧ out.1.1.Log = "ok" ∧ out.1.1.GasUsed = 0) ∧
    (∃ out, (newLegacyAnteMiddleware none innerOk).SimulateTx isZeroMs ctx0 tx0
        { TxBytes := [1] } state0 = some out ∧
      out.1.1.Result = some { Log := "ok" } ∧ out.1.1.GasInfo = {}) := by
  have h := C20_only_payload_fields_are_copied isZeroMs (newLegacyAnteMiddleware none innerOk)
    ctx0 tx0 state0
  have hC : (newLegacyAnteMiddleware none innerOk).CheckTx isZeroMs ctx0 tx0 { Tx := [1] }
      state0 = some (({ Data := [1, 2], Log := "ok" }, none),
        { heap := heap0, trace := [Call.innerCheckTx ctx0 tx0 { Tx := [1] }] }) := by
    decide
  have hS : (newLegacyAnteMiddleware none innerOk).SimulateTx isZeroMs ctx0 tx0
      { TxBytes := [1] } state0 = some (({ Result := some { Log := "ok" } }, none),
        { heap := heap0, trace := [Call.innerSimulateTx ctx0 tx0 { TxBytes := [1] }] }) := by
    decide
  exact ⟨by decide, by decide,
    ⟨_, hC, rfl, rfl, (h.1 { Tx := [1] } _ hC).2.2.2.1⟩,
    ⟨_, hS, rfl, h.2.2.1 { TxBytes := [1] } _ hS⟩⟩

/-- C17, as stated, fails on the model of the keeper: the empty address has the empty
string form, so after `SetAccount(NewAccountWithAddress(a))` for the empty address `a`
the account is registered, and the Account query for the string form of `a` still
returns an error and a nil result. -/
theorem C17_empty_address_counterexample :
    AccAddress.String [] = [] ∧
    (keeper0.SetAccount (keeper0.NewAccountWithAddress [])).GetAccount [] =
      some { address := [], accountNumber := 0, sequence := 0 } ∧
    (keeper0.SetAccount (keeper0.NewAccountWithAddress [])).Account
        (some { Address := AccAddress.String [] }) =
      (none, some (errInvalidArgument "Address cannot be empty")) := by
  decide

/-- C17, amended (account lookup by address, on the model of the keeper): for every
address that was never registered the Account query for its string form returns an
error and a nil result, the not-found error when the address is not empty; for every
non-empty address `a` registered with `SetAccount(NewAccountWithAddress(a))` the query
for the string form of `a` returns no error and a result whose account has address `a`;
a request with an empty address returns an error and a nil result. -/
theorem C17_account_lookup_by_address (k : AccountKeeper) (a : AccAddress) :
    ((∀ acc ∈ k.accounts, acc.address ≠ a) →
      (∃ e, k.Account (some { Address := AccAddress.String a }) = (none, some e)) ∧
      (a ≠ [] →
        k.Account (some { Address := AccAddress.String a }) = (none, some errNotFound))) ∧
    (a ≠ [] →
      ∃ acc, (k.SetAccount (k.NewAccountWithAddress a)).Account
          (some { Address := AccAddress.String a }) = (some { Account := acc }, none) ∧
        acc.address = a) ∧
    (∃ e, k.Account (some { Address := [] }) = (none, some e)) := by
  refine ⟨?_, ?_, ?_⟩
  · intro hnot
    have hget := GetAccount_of_not_registered k a hnot
    have hnf : a ≠ [] →
        k.Account (some { Address := AccAddress.String a }) = (none, some errNotFound) := by
      intro ha
      simp [AccountKeeper.Account, String_ne_nil a ha, AccAddressFromBech32_String a ha, hget]
    constructor
    · by_cases ha : a = []
      · subst ha
        exact ⟨errInvalidArgument "Address cannot be empty",
          by simp [AccountKeeper.Account, AccAddress.String]⟩
      · exact ⟨errNotFound, hnf ha⟩
    · exact hnf
  · intro ha
    have hget := GetAccount_SetAccount k (k.NewAccountWithAddress a)
    have haddr : (k.NewAccountWithAddress a).address = a := rfl
    rw [haddr] at hget
    exact ⟨k.NewAccountWithAddress a,
      by simp [AccountKeeper.Account, String_ne_nil a ha, AccAddressFromBech32_String a ha,
        hget], rfl⟩
  · exact ⟨errInvalidArgument "Address cannot be empty", by simp [AccountKeeper.Account]⟩

theorem C17_account_lookup_by_address_witness :
    (∀ acc ∈ keeper0.accounts, acc.address ≠ [1]) ∧
    ([1] : AccAddress) ≠ [] ∧
    keeper0.Account (some { Address := AccAddress.String [1] }) = (none, some errNotFound) ∧
    ∃ acc, (keeper0.SetAccount (keeper0.NewAccountWithAddress [1])).Account
        (some { Address := AccAddress.String [1] }) = (some { Account := acc }, none) ∧
      acc.address = [1] := by
  have hnot : ∀ acc ∈ keeper0.accounts, acc.address ≠ [1] := by decide
  have ha : ([1] : AccAddress) ≠ [] := by decide
  have h := C17_account_lookup_by_address keeper0 [1]
  exact ⟨hnot, ha, (h.1 hnot).2 ha, h.2.1 ha⟩

end LegacyAnte
